import Mathlib

/-!
Verification of the document-extraction core of `Ctrl-F-on-Steroids`.

The development shallowly embeds the per-format processors of the repository
(`src/processor/yaml_processor.py`, `src/processor/json_processor.py`,
`src/processor/sql_processor.py`, `src/processor/python_processor.py`) and the
dispatch logic of `src/data_loader.py`.  Dynamic Python values produced by
`yaml.safe_load_all` / `json.load` are modelled by the inductive type `PyVal`;
Python's `AttributeError` / `TypeError` raised by attribute access or
membership tests on values of the wrong shape are modelled by the `Except PyErr`
monad.  File reading and the external parsers (`yaml`, `json`, `ast`) are
treated as oracles: a file model carries the raw content (`none` = I/O error)
and the parse result (`none` = parse error), and each processor is a pure
function of that model, translated statement by statement from the source.
-/

/-- A dynamic Python value as produced by `yaml.safe_load` / `json.load`.
Mapping keys are restricted to strings, which is the shape every processor in
the source accesses. -/
inductive PyVal where
  | vStr (s : String)
  | vInt (n : Int)
  | vBool (b : Bool)
  | vNone
  | vList (items : List PyVal)
  | vDict (entries : List (String × PyVal))
deriving Repr

/-- The Python exceptions the processors can raise internally. -/
inductive PyErr where
  | attributeError
  | typeError
deriving Repr, DecidableEq

/-- `charsPrefix n h`: is `n` a prefix of `h`? -/
def charsPrefix : List Char → List Char → Bool
  | [], _ => true
  | _ :: _, [] => false
  | a :: as, b :: bs => a = b && charsPrefix as bs

/-- `charsContains h n`: does `n` occur as a contiguous run inside `h`? -/
def charsContains : List Char → List Char → Bool
  | [], n => n.isEmpty
  | h :: rest, n => charsPrefix n (h :: rest) || charsContains rest n

/-- Substring occurrence on strings. -/
def strContains (hay needle : String) : Bool :=
  charsContains hay.data needle.data

/-- Python whitespace for `str.strip()` (ASCII range; the inputs the
processors handle are ASCII). -/
def isPySpace (c : Char) : Bool :=
  c = ' ' || c = '\t' || c = '\n' || c = '\r' || c = '\x0b' || c = '\x0c'

/-- Drop leading Python whitespace. -/
def dropSpaces : List Char → List Char
  | [] => []
  | c :: rest => if isPySpace c then dropSpaces rest else c :: rest

/-- Python `s.strip()`. -/
def pyStrip (s : String) : String :=
  String.mk ((dropSpaces (dropSpaces s.data.reverse).reverse))

/-- Left-to-right, non-overlapping split on a separator, fuel-structured so
that the kernel can evaluate it (`fuel` bounds the number of consumed
characters). -/
def splitFuel (sep : List Char) : Nat → List Char → List Char → List (List Char)
  | _, [], acc => [acc.reverse]
  | 0, s, acc => [acc.reverse ++ s]
  | fuel + 1, c :: rest, acc =>
      if charsPrefix sep (c :: rest) then
        acc.reverse :: splitFuel sep fuel ((c :: rest).drop sep.length) []
      else
        splitFuel sep fuel rest (c :: acc)

/-- Python `s.split(sep)` for a non-empty separator. -/
def pySplit (s sep : String) : List String :=
  (splitFuel sep.data s.data.length s.data []).map String.mk

/-- Left-to-right, non-overlapping replacement of every occurrence of a
non-empty pattern by the empty string (`str.replace(old, "")`),
fuel-structured like `splitFuel`. -/
def replaceAllFuel (old : List Char) : Nat → List Char → List Char
  | _, [] => []
  | 0, s => s
  | fuel + 1, c :: rest =>
      if charsPrefix old (c :: rest) then
        replaceAllFuel old fuel ((c :: rest).drop old.length)
      else c :: replaceAllFuel old fuel rest

/-- Python `s.replace(old, "")`. -/
def pyReplaceAll (s old : String) : String :=
  String.mk (replaceAllFuel old.data s.data.length s.data)

/-- `sep.join(parts)`. -/
def joinWith (sep : String) : List String → String
  | [] => ""
  | [x] => x
  | x :: rest => x ++ sep ++ joinWith sep rest

mutual

/-- Python `repr` of a value (string escaping inside `repr` of a string is
elided; no claim depends on it). -/
def pyRepr : PyVal → String
  | .vStr s => "'" ++ s ++ "'"
  | .vInt n => toString n
  | .vBool b => if b then "True" else "False"
  | .vNone => "None"
  | .vList items => "[" ++ joinWith ", " (pyReprList items) ++ "]"
  | .vDict es => "\x7b" ++ joinWith ", " (pyReprEntries es) ++ "\x7d"

/-- `repr` of each element of a list. -/
def pyReprList : List PyVal → List String
  | [] => []
  | v :: rest => pyRepr v :: pyReprList rest

/-- `repr` of each `key: value` entry of a dict. -/
def pyReprEntries : List (String × PyVal) → List String
  | [] => []
  | (k, v) :: rest => ("'" ++ k ++ "': " ++ pyRepr v) :: pyReprEntries rest

end

/-- Python `str()`, as used by f-string interpolation. -/
def pyStr : PyVal → String
  | .vStr s => s
  | v => pyRepr v

/-- Key membership in a dict's entry list. -/
def hasKey (es : List (String × PyVal)) (k : String) : Bool :=
  es.any (fun e => e.fst = k)

/-- First-match key lookup in a dict's entry list. -/
def dictFind : List (String × PyVal) → String → Option PyVal
  | [], _ => none
  | (k', v) :: rest, k => if k = k' then some v else dictFind rest k

/-- Python `d.get(k, default)`: key lookup with a default on a dict, an
`AttributeError` on every other receiver. -/
def pyGet (v : PyVal) (k : String) (dflt : PyVal) : Except PyErr PyVal :=
  match v with
  | .vDict es => .ok ((dictFind es k).getD dflt)
  | _ => .error .attributeError

/-- Python `d.items()`: the entry list of a dict, an `AttributeError` on every
other receiver. -/
def pyItems (v : PyVal) : Except PyErr (List (String × PyVal)) :=
  match v with
  | .vDict es => .ok es
  | _ => .error .attributeError

/-- Python `needle in v`: key membership for dicts, element-equality membership
for lists (a string never equals a non-string), substring test for strings, a
`TypeError` for the remaining types. -/
def pyIn (needle : String) (v : PyVal) : Except PyErr Bool :=
  match v with
  | .vDict es => .ok (hasKey es needle)
  | .vList items =>
      .ok (items.any (fun it =>
        match it with
        | .vStr s => s = needle
        | _ => false))
  | .vStr s => .ok (strContains s needle)
  | _ => .error .typeError

/-- A langchain `Document`: retrievable text plus a metadata mapping.  Metadata
values keep their dynamic type, as in the source. -/
structure Passage where
  text : String
  metadata : List (String × PyVal)
deriving Repr

/-! ## Workflow-definition extractor (`src/processor/yaml_processor.py`) -/

/-- The two adjacency mappings built by `YamlProcessor._parse_execution_flow`
(`dependencies["upstream"]` and `dependencies["downstream"]`), insertion
ordered. -/
structure TaskDeps where
  upstream : List (String × List String)
  downstream : List (String × List String)
deriving Repr, DecidableEq

/-- `m.setdefault(k, []).append(v)` on an insertion-ordered dict of lists. -/
def addAdj (m : List (String × List String)) (k v : String) :
    List (String × List String) :=
  match m with
  | [] => [(k, [v])]
  | (k', vs) :: rest =>
      if k' = k then (k', vs ++ [v]) :: rest else (k', vs) :: addAdj rest k v

/-- First-match lookup in an adjacency mapping (`dependencies["upstream"][t]`
guarded by `t in dependencies["upstream"]`). -/
def adjFind : List (String × List String) → String → Option (List String)
  | [], _ => none
  | (k', vs) :: rest, k => if k = k' then some vs else adjFind rest k

/-- `[p.strip() for p in flow.split(">>")]`. -/
def parseChain (flow : String) : List String :=
  (pySplit flow ">>").map pyStrip

/-- The inner loop of `_parse_execution_flow`: for each adjacent pair
`(parts[i], parts[i+1])` record the downstream and upstream edges. -/
def addPairs : TaskDeps → List String → TaskDeps
  | deps, a :: b :: rest =>
      addPairs ⟨addAdj deps.upstream b a, addAdj deps.downstream a b⟩ (b :: rest)
  | deps, _ => deps

/-- `YamlProcessor._parse_execution_flow` on a dynamic value: dependencies stay
empty unless the value is a list; a non-string chain raises `AttributeError`
at `flow.split`. -/
def parseExecutionFlow (v : PyVal) : Except PyErr TaskDeps :=
  match v with
  | .vList items =>
      items.foldlM
        (fun deps it =>
          match it with
          | .vStr flow => .ok (addPairs deps (parseChain flow))
          | _ => .error .attributeError)
        ⟨[], []⟩
  | _ => .ok ⟨[], []⟩

/-- `_parse_execution_flow` specialized to a list of chain-expression strings
(the execution-order specification of the spec). -/
def parseExecutionFlowStrs (flows : List String) : TaskDeps :=
  flows.foldl (fun deps f => addPairs deps (parseChain f)) ⟨[], []⟩

/-- `YamlProcessor._create_raw_document`. -/
def createRawDocument (filePath rawContent : String) : Passage :=
  { text := rawContent
    metadata := [("source", .vStr filePath), ("doc_id", .vStr ("raw:" ++ filePath))] }

/-- `YamlProcessor._create_dag_summary_document`. -/
def createDagSummaryDocument (filePath : String)
    (dagId owner schedule description : PyVal) : Passage :=
  { text :=
      "This document describes the DAG configuration with ID '" ++ pyStr dagId ++
      "'. The owner is '" ++ pyStr owner ++ "', it runs on schedule: '" ++
      pyStr schedule ++ "', and its description is: '" ++ pyStr description ++ "'."
    metadata :=
      [("source", .vStr filePath), ("dag_id", dagId),
       ("doc_id", .vStr (pyStr dagId ++ ":__DAG_SUMMARY__")), ("owner", owner)] }

/-- `YamlProcessor._create_task_document`; `task_details.get` raises when the
task's details are not a mapping. -/
def createTaskDocument (filePath : String) (dagId owner : PyVal)
    (taskName : String) (taskDetails : PyVal) (deps : TaskDeps) :
    Except PyErr Passage := do
  let operator ← pyGet taskDetails "operator" (.vStr "unknown")
  let script ← pyGet taskDetails "file" (.vStr "not specified")
  let base :=
    "The DAG '" ++ pyStr dagId ++ "' contains a task named '" ++ taskName ++
    "'. This task uses the '" ++ pyStr operator ++
    "' operator and runs the script '" ++ pyStr script ++ "'."
  let withUp :=
    match adjFind deps.upstream taskName with
    | some ups =>
        base ++ " It runs after the following task(s): " ++
          joinWith ", " ups ++ "."
    | none => base
  let withDown :=
    match adjFind deps.downstream taskName with
    | some downs =>
        withUp ++ " It runs before the following task(s): " ++
          joinWith ", " downs ++ "."
    | none => withUp
  let p : Passage :=
    { text := withDown
      metadata :=
        [("source", .vStr filePath), ("dag_id", dagId),
         ("task_name", .vStr taskName),
         ("doc_id", .vStr (pyStr dagId ++ ":" ++ taskName)),
         ("owner", owner), ("operator", operator)] }
  return p

/-- Build the task passages in task-mapping order; the first raised exception
aborts the whole sub-document (the local `dag_documents` list is discarded). -/
def createTaskDocuments (filePath : String) (dagId owner : PyVal)
    (deps : TaskDeps) : List (String × PyVal) → Except PyErr (List Passage)
  | [] => .ok []
  | (taskName, taskDetails) :: rest => do
      let d ← createTaskDocument filePath dagId owner taskName taskDetails deps
      let ds ← createTaskDocuments filePath dagId owner deps rest
      return d :: ds

/-- `YamlProcessor._process_dag_doc`, with every dynamic attribute access that
can raise made explicit, in source order. -/
def processDagDoc (filePath : String) (docContent : PyVal) :
    Except PyErr (List Passage) := do
  let dagInfo ← pyGet docContent "dag" (.vDict [])
  let dagId ← pyGet dagInfo "dag_id" (.vStr "N/A")
  let executionFlowList ← pyGet docContent "execution" (.vList [])
  let deps ← parseExecutionFlow executionFlowList
  let defaultArgs ← pyGet dagInfo "default_args" (.vDict [])
  let owner ← pyGet defaultArgs "owner" (.vStr "N/A")
  let schedule ← pyGet dagInfo "schedule_interval" (.vStr "N/A")
  let description ← pyGet dagInfo "description" (.vStr "No description provided.")
  let summaryDoc := createDagSummaryDocument filePath dagId owner schedule description
  let tasks ← pyGet docContent "tasks" (.vDict [])
  let taskItems ← pyItems tasks
  let taskDocs ← createTaskDocuments filePath dagId owner deps taskItems
  return summaryDoc :: taskDocs

/-- The guard of the per-sub-document loop: `isinstance(d, dict) and "dag" in d`. -/
def isDagDoc (v : PyVal) : Bool :=
  match v with
  | .vDict es => hasKey es "dag"
  | _ => false

/-- The `for yaml_doc_content in yaml_data_list` loop of
`YamlProcessor.process`, inside the `try`: an exception raised by
`_process_dag_doc` escapes the loop to the generic `except` branch, which
prints a warning and returns the passages accumulated so far. -/
def yamlProcessDocs (filePath : String) (docs : List PyVal)
    (acc : List Passage) : List Passage × List String :=
  match docs with
  | [] => (acc, [])
  | d :: rest =>
      if isDagDoc d then
        match processDagDoc filePath d with
        | .ok ps => yamlProcessDocs filePath rest (acc ++ ps)
        | .error _ =>
            (acc, ["Warning: Unexpected error processing YAML file " ++ filePath])
      else yamlProcessDocs filePath rest acc

/-- A YAML file as the processor sees it: the raw read (`none` = `IOError`)
and the result of `yaml.safe_load_all` (`none` = `yaml.YAMLError`). -/
structure YamlFile where
  path : String
  read : Option String
  parsed : Option (List PyVal)
deriving Repr

/-- `YamlProcessor.process`: passages plus printed warnings. -/
def yamlProcess (f : YamlFile) : List Passage × List String :=
  match f.read with
  | none => ([], ["Warning: Could not read file " ++ f.path])
  | some rawContent =>
      let rawDoc := createRawDocument f.path rawContent
      match f.parsed with
      | none => ([rawDoc], ["Warning: Invalid YAML format in " ++ f.path])
      | some docs => yamlProcessDocs f.path docs [rawDoc]

/-! ## Dependency-resolver lemmas (claim C5) -/

/-- Adjacency lookup: `dependencies["upstream"][t]`, the empty list when the
key is absent (`task_name in dependencies[...]` guards every read). -/
def lookupAdj (m : List (String × List String)) (k : String) : List String :=
  (adjFind m k).getD []

/-- `(a, b)` is an adjacent pair of one of the chains: the trimmed segment
list of some chain expression contains `[a, b]` as a contiguous run. -/
def AdjacentPair (flows : List String) (a b : String) : Prop :=
  ∃ f ∈ flows, [a, b] <:+: parseChain f

theorem lookupAdj_addAdj (m : List (String × List String)) (k v k' : String) :
    lookupAdj (addAdj m k v) k' =
      if k' = k then lookupAdj m k ++ [v] else lookupAdj m k' := by
  induction m with
  | nil =>
      by_cases h : k' = k
      · subst h; simp [addAdj, lookupAdj, adjFind]
      · simp [addAdj, lookupAdj, adjFind, h]
  | cons hd tl ih =>
      obtain ⟨k₀, vs⟩ := hd
      by_cases hk₀ : k₀ = k
      · subst hk₀
        by_cases h : k' = k₀
        · subst h; simp [addAdj, lookupAdj, adjFind]
        · simp [addAdj, lookupAdj, adjFind, h]
      · by_cases h : k' = k₀
        · subst h
          simp [addAdj, lookupAdj, adjFind, hk₀]
        · by_cases h2 : k' = k
          · subst h2
            simpa [addAdj, lookupAdj, adjFind, hk₀, h] using ih
          · simpa [addAdj, lookupAdj, adjFind, hk₀, h, h2] using ih

theorem mem_lookupAdj_addAdj (m : List (String × List String))
    (k v k' a : String) :
    a ∈ lookupAdj (addAdj m k v) k' ↔
      a ∈ lookupAdj m k' ∨ (k' = k ∧ a = v) := by
  rw [lookupAdj_addAdj]
  by_cases h : k' = k
  · subst h; simp
  · simp [h]

theorem not_infix_pair_short (a b x : String) : ¬ [a, b] <:+: [x] := by
  intro h
  have := h.length_le
  simp at this

theorem infix_pair_cons (a b x y : String) (rest : List String) :
    [a, b] <:+: x :: y :: rest ↔ (a = x ∧ b = y) ∨ [a, b] <:+: y :: rest := by
  rw [List.infix_cons_iff]
  constructor
  · rintro (⟨t, ht⟩ | h)
    · left
      rw [List.cons_append, List.cons_append, List.nil_append] at ht
      injection ht with h1 h2
      injection h2 with h3 _
      exact ⟨h1, h3⟩
    · right; exact h
  · rintro (⟨rfl, rfl⟩ | h)
    · exact Or.inl ⟨rest, rfl⟩
    · right; exact h

theorem mem_addPairs_upstream (parts : List String) (deps : TaskDeps)
    (a b : String) :
    a ∈ lookupAdj (addPairs deps parts).upstream b ↔
      a ∈ lookupAdj deps.upstream b ∨ [a, b] <:+: parts := by
  induction parts generalizing deps with
  | nil =>
      simp only [addPairs]
      constructor
      · exact Or.inl
      · rintro (h | h)
        · exact h
        · exact absurd h.length_le (by simp)
  | cons x tail ih =>
      cases tail with
      | nil =>
          simp only [addPairs]
          constructor
          · exact Or.inl
          · rintro (h | h)
            · exact h
            · exact absurd h (not_infix_pair_short a b x)
      | cons y rest =>
          simp only [addPairs]
          rw [ih, infix_pair_cons]
          simp only [mem_lookupAdj_addAdj]
          constructor
          · rintro ((h | ⟨rfl, rfl⟩) | h)
            · exact Or.inl h
            · exact Or.inr (Or.inl ⟨rfl, rfl⟩)
            · exact Or.inr (Or.inr h)
          · rintro (h | (⟨rfl, rfl⟩ | h))
            · exact Or.inl (Or.inl h)
            · exact Or.inl (Or.inr ⟨rfl, rfl⟩)
            · exact Or.inr h

theorem mem_addPairs_downstream (parts : List String) (deps : TaskDeps)
    (a b : String) :
    b ∈ lookupAdj (addPairs deps parts).downstream a ↔
      b ∈ lookupAdj deps.downstream a ∨ [a, b] <:+: parts := by
  induction parts generalizing deps with
  | nil =>
      simp only [addPairs]
      constructor
      · exact Or.inl
      · rintro (h | h)
        · exact h
        · exact absurd h.length_le (by simp)
  | cons x tail ih =>
      cases tail with
      | nil =>
          simp only [addPairs]
          constructor
          · exact Or.inl
          · rintro (h | h)
            · exact h
            · exact absurd h (not_infix_pair_short a b x)
      | cons y rest =>
          simp only [addPairs]
          rw [ih, infix_pair_cons]
          simp only [mem_lookupAdj_addAdj]
          constructor
          · rintro ((h | ⟨rfl, rfl⟩) | h)
            · exact Or.inl h
            · exact Or.inr (Or.inl ⟨rfl, rfl⟩)
            · exact Or.inr (Or.inr h)
          · rintro (h | (⟨rfl, rfl⟩ | h))
            · exact Or.inl (Or.inl h)
            · exact Or.inl (Or.inr ⟨rfl, rfl⟩)
            · exact Or.inr h

theorem mem_parseFlow_upstream_aux (flows : List String) (deps : TaskDeps)
    (a b : String) :
    a ∈ lookupAdj (flows.foldl (fun d f => addPairs d (parseChain f)) deps).upstream b ↔
      a ∈ lookupAdj deps.upstream b ∨ ∃ f ∈ flows, [a, b] <:+: parseChain f := by
  induction flows generalizing deps with
  | nil => simp
  | cons f tail ih =>
      simp only [List.foldl_cons]
      rw [ih, mem_addPairs_upstream]
      simp only [List.mem_cons]
      constructor
      · rintro ((h | h) | ⟨g, hg, h⟩)
        · exact Or.inl h
        · exact Or.inr ⟨f, Or.inl rfl, h⟩
        · exact Or.inr ⟨g, Or.inr hg, h⟩
      · rintro (h | ⟨g, (rfl | hg), h⟩)
        · exact Or.inl (Or.inl h)
        · exact Or.inl (Or.inr h)
        · exact Or.inr ⟨g, hg, h⟩

theorem mem_parseFlow_downstream_aux (flows : List String) (deps : TaskDeps)
    (a b : String) :
    b ∈ lookupAdj (flows.foldl (fun d f => addPairs d (parseChain f)) deps).downstream a ↔
      b ∈ lookupAdj deps.downstream a ∨ ∃ f ∈ flows, [a, b] <:+: parseChain f := by
  induction flows generalizing deps with
  | nil => simp
  | cons f tail ih =>
      simp only [List.foldl_cons]
      rw [ih, mem_addPairs_downstream]
      simp only [List.mem_cons]
      constructor
      · rintro ((h | h) | ⟨g, hg, h⟩)
        · exact Or.inl h
        · exact Or.inr ⟨f, Or.inl rfl, h⟩
        · exact Or.inr ⟨g, Or.inr hg, h⟩
      · rintro (h | ⟨g, (rfl | hg), h⟩)
        · exact Or.inl (Or.inl h)
        · exact Or.inl (Or.inr h)
        · exact Or.inr ⟨g, hg, h⟩

theorem parseExecutionFlow_on_strings (flows : List String) :
    parseExecutionFlow (.vList (flows.map .vStr)) =
      .ok (parseExecutionFlowStrs flows) := by
  show (flows.map PyVal.vStr).foldlM _ (⟨[], []⟩ : TaskDeps) = _
  rw [parseExecutionFlowStrs]
  generalize (⟨[], []⟩ : TaskDeps) = deps
  induction flows generalizing deps with
  | nil => rfl
  | cons f tail ih => simpa using ih (addPairs deps (parseChain f))

/-- C5: for every execution-order specification (a list of chain expressions,
each split on the `>>` token with whitespace-trimmed segments), the dependency
resolver records task `a` in the upstream adjacency of task `b` iff it records
`b` in the downstream adjacency of `a`, and either holds exactly when `(a, b)`
is an adjacent pair of one of the chains; moreover the resolver of the source
(`_parse_execution_flow`) computes exactly this on a list of chain strings. -/
theorem claim_C5_dependency_symmetry (flows : List String) (a b : String) :
    (a ∈ lookupAdj (parseExecutionFlowStrs flows).upstream b ↔
      b ∈ lookupAdj (parseExecutionFlowStrs flows).downstream a) ∧
    (a ∈ lookupAdj (parseExecutionFlowStrs flows).upstream b ↔
      AdjacentPair flows a b) ∧
    (b ∈ lookupAdj (parseExecutionFlowStrs flows).downstream a ↔
      AdjacentPair flows a b) ∧
    parseExecutionFlow (.vList (flows.map .vStr)) =
      .ok (parseExecutionFlowStrs flows) := by
  have hu := mem_parseFlow_upstream_aux flows ⟨[], []⟩ a b
  have hd := mem_parseFlow_downstream_aux flows ⟨[], []⟩ a b
  have e1 : (⟨[], []⟩ : TaskDeps).upstream = [] := rfl
  have e2 : (⟨[], []⟩ : TaskDeps).downstream = [] := rfl
  rw [e1] at hu
  rw [e2] at hd
  have lnil : ∀ k : String, lookupAdj [] k = [] := fun _ => rfl
  rw [lnil] at hu hd
  simp only [List.not_mem_nil, false_or] at hu hd
  unfold parseExecutionFlowStrs
  exact ⟨hu.trans hd.symm, hu, hd, parseExecutionFlow_on_strings flows⟩

/-! ## Success-path characterization of `_process_dag_doc` -/

/-- Total variant of `d.get(k, default)`, used to state what the extractor
computes on the inputs where it does not raise. -/
def dictGetD (v : PyVal) (k : String) (dflt : PyVal) : PyVal :=
  match v with
  | .vDict es => (dictFind es k).getD dflt
  | _ => dflt

/-- `doc_content.get("dag", {})`. -/
def dagInfoOf (d : PyVal) : PyVal := dictGetD d "dag" (.vDict [])

/-- `dag_info.get("dag_id", "N/A")`. -/
def dagIdOf (d : PyVal) : PyVal := dictGetD (dagInfoOf d) "dag_id" (.vStr "N/A")

/-- `dag_info.get("default_args", {}).get("owner", "N/A")`. -/
def ownerOf (d : PyVal) : PyVal :=
  dictGetD (dictGetD (dagInfoOf d) "default_args" (.vDict [])) "owner" (.vStr "N/A")

/-- `dag_info.get("schedule_interval", "N/A")`. -/
def scheduleOf (d : PyVal) : PyVal :=
  dictGetD (dagInfoOf d) "schedule_interval" (.vStr "N/A")

/-- `dag_info.get("description", "No description provided.")`. -/
def descriptionOf (d : PyVal) : PyVal :=
  dictGetD (dagInfoOf d) "description" (.vStr "No description provided.")

/-- The entries of `doc_content.get("tasks", {})` (empty when the value is not
a mapping — the extractor raises on those inputs, so this is only used on the
success path). -/
def taskEntries (d : PyVal) : List (String × PyVal) :=
  match dictGetD d "tasks" (.vDict []) with
  | .vDict es => es
  | _ => []

/-- The dependency graph of `doc_content.get("execution", [])` on the success
path. -/
def depsOf (d : PyVal) : TaskDeps :=
  match parseExecutionFlow (dictGetD d "execution" (.vList [])) with
  | .ok deps => deps
  | .error _ => ⟨[], []⟩

/-- Total variant of `_create_task_document`, agreeing with
`createTaskDocument` whenever the latter succeeds. -/
def taskPassage (filePath : String) (dagId owner : PyVal) (deps : TaskDeps)
    (taskName : String) (taskDetails : PyVal) : Passage :=
  let operator := dictGetD taskDetails "operator" (.vStr "unknown")
  let script := dictGetD taskDetails "file" (.vStr "not specified")
  let base :=
    "The DAG '" ++ pyStr dagId ++ "' contains a task named '" ++ taskName ++
    "'. This task uses the '" ++ pyStr operator ++
    "' operator and runs the script '" ++ pyStr script ++ "'."
  let withUp :=
    match adjFind deps.upstream taskName with
    | some ups =>
        base ++ " It runs after the following task(s): " ++
          joinWith ", " ups ++ "."
    | none => base
  let withDown :=
    match adjFind deps.downstream taskName with
    | some downs =>
        withUp ++ " It runs before the following task(s): " ++
          joinWith ", " downs ++ "."
    | none => withUp
  { text := withDown
    metadata :=
      [("source", .vStr filePath), ("dag_id", dagId),
       ("task_name", .vStr taskName),
       ("doc_id", .vStr (pyStr dagId ++ ":" ++ taskName)),
       ("owner", owner), ("operator", operator)] }

theorem createTaskDocument_ok (filePath : String) (dagId owner : PyVal)
    (taskName : String) (taskDetails : PyVal) (deps : TaskDeps) (p : Passage)
    (h : createTaskDocument filePath dagId owner taskName taskDetails deps = .ok p) :
    p = taskPassage filePath dagId owner deps taskName taskDetails := by
  cases taskDetails with
  | vDict es =>
      simp only [createTaskDocument, pyGet, Bind.bind, Except.bind, Pure.pure,
        Except.pure, Except.ok.injEq] at h
      rw [← h]
      rfl
  | vStr s => simp [createTaskDocument, pyGet, Bind.bind, Except.bind] at h
  | vInt n => simp [createTaskDocument, pyGet, Bind.bind, Except.bind] at h
  | vBool b => simp [createTaskDocument, pyGet, Bind.bind, Except.bind] at h
  | vNone => simp [createTaskDocument, pyGet, Bind.bind, Except.bind] at h
  | vList l => simp [createTaskDocument, pyGet, Bind.bind, Except.bind] at h

theorem createTaskDocuments_ok (filePath : String) (dagId owner : PyVal)
    (deps : TaskDeps) (items : List (String × PyVal)) (ds : List Passage)
    (h : createTaskDocuments filePath dagId owner deps items = .ok ds) :
    ds = items.map (fun e => taskPassage filePath dagId owner deps e.1 e.2) := by
  induction items generalizing ds with
  | nil =>
      simp only [createTaskDocuments] at h
      cases h
      rfl
  | cons e rest ih =>
      obtain ⟨taskName, taskDetails⟩ := e
      simp only [createTaskDocuments, Bind.bind, Except.bind] at h
      cases h1 : createTaskDocument filePath dagId owner taskName taskDetails deps with
      | error err => rw [h1] at h; cases h
      | ok p =>
          rw [h1] at h
          cases h2 : createTaskDocuments filePath dagId owner deps rest with
          | error err => rw [h2] at h; cases h
          | ok ps =>
              rw [h2] at h
              simp only [Pure.pure, Except.pure, Except.ok.injEq] at h
              rw [← h, List.map_cons]
              rw [createTaskDocument_ok filePath dagId owner taskName taskDetails deps p h1,
                ih ps h2]

theorem processDagDoc_ok_shape (filePath : String) (d : PyVal) (ps : List Passage)
    (h : processDagDoc filePath d = .ok ps) :
    ps = createDagSummaryDocument filePath (dagIdOf d) (ownerOf d)
        (scheduleOf d) (descriptionOf d) ::
      (taskEntries d).map
        (fun e => taskPassage filePath (dagIdOf d) (ownerOf d) (depsOf d) e.1 e.2) := by
  cases d with
  | vStr s => simp [processDagDoc, pyGet, Bind.bind, Except.bind] at h
  | vInt n => simp [processDagDoc, pyGet, Bind.bind, Except.bind] at h
  | vBool b => simp [processDagDoc, pyGet, Bind.bind, Except.bind] at h
  | vNone => simp [processDagDoc, pyGet, Bind.bind, Except.bind] at h
  | vList l => simp [processDagDoc, pyGet, Bind.bind, Except.bind] at h
  | vDict es =>
      simp only [processDagDoc, pyGet, Bind.bind, Except.bind] at h
      cases hX : (dictFind es "dag").getD (.vDict []) with
      | vStr s => rw [hX] at h; simp at h
      | vInt n => rw [hX] at h; simp at h
      | vBool b => rw [hX] at h; simp at h
      | vNone => rw [hX] at h; simp at h
      | vList l => rw [hX] at h; simp at h
      | vDict infoEs =>
          rw [hX] at h
          simp only [] at h
          cases hE : parseExecutionFlow ((dictFind es "execution").getD (.vList [])) with
          | error err => rw [hE] at h; simp at h
          | ok deps =>
              rw [hE] at h
              simp only [] at h
              cases hDA : (dictFind infoEs "default_args").getD (.vDict []) with
              | vStr s => rw [hDA] at h; simp at h
              | vInt n => rw [hDA] at h; simp at h
              | vBool b => rw [hDA] at h; simp at h
              | vNone => rw [hDA] at h; simp at h
              | vList l => rw [hDA] at h; simp at h
              | vDict daEs =>
                  rw [hDA] at h
                  simp only [] at h
                  cases hT : (dictFind es "tasks").getD (.vDict []) with
                  | vStr s => rw [hT] at h; simp [pyItems] at h
                  | vInt n => rw [hT] at h; simp [pyItems] at h
                  | vBool b => rw [hT] at h; simp [pyItems] at h
                  | vNone => rw [hT] at h; simp [pyItems] at h
                  | vList l => rw [hT] at h; simp [pyItems] at h
                  | vDict tes =>
                      rw [hT] at h
                      simp only [pyItems] at h
                      cases hTD : createTaskDocuments filePath
                          ((dictFind infoEs "dag_id").getD (.vStr "N/A"))
                          ((dictFind daEs "owner").getD (.vStr "N/A")) deps tes with
                      | error err => rw [hTD] at h; simp at h
                      | ok ds =>
                          rw [hTD] at h
                          simp only [Pure.pure, Except.pure, Except.ok.injEq] at h
                          subst h
                          rw [createTaskDocuments_ok filePath _ _ deps tes ds hTD]
                          simp only [dagIdOf, dagInfoOf, ownerOf, scheduleOf,
                            descriptionOf, taskEntries, depsOf, dictGetD, hX,
                            hDA, hT, hE]

/-- The passages contributed by one sub-document (empty when its processing
raised — those are never appended). -/
def dagPassages (filePath : String) (d : PyVal) : List Passage :=
  match processDagDoc filePath d with
  | .ok ps => ps
  | .error _ => []

theorem yamlProcessDocs_all_ok (filePath : String) (docs : List PyVal)
    (acc : List Passage)
    (h : ∀ d ∈ docs, isDagDoc d → ∃ ps, processDagDoc filePath d = .ok ps) :
    yamlProcessDocs filePath docs acc =
      (acc ++ ((docs.filter (fun d => isDagDoc d)).map (dagPassages filePath)).flatten,
        []) := by
  induction docs generalizing acc with
  | nil => simp [yamlProcessDocs]
  | cons d rest ih =>
      by_cases hd : isDagDoc d = true
      · obtain ⟨ps, hps⟩ := h d (List.mem_cons_self d rest) hd
        simp only [yamlProcessDocs, hd, if_true, hps]
        rw [ih (acc ++ ps) (fun d' hd' => h d' (List.mem_cons_of_mem d hd'))]
        simp [List.filter_cons, hd, dagPassages, hps, List.append_assoc]
      · simp only [yamlProcessDocs, hd, if_false]
        rw [ih acc (fun d' hd' => h d' (List.mem_cons_of_mem d hd'))]
        simp [List.filter_cons, hd]

/-- The workflow sub-document of spec Scenario 1: three tasks chained by
`"start_task >> process_data >> send_report"`. -/
def scenarioDag1 : PyVal :=
  .vDict
    [("dag", .vDict
        [("dag_id", .vStr "fake_seller_dag"),
         ("schedule_interval", .vStr "0 5 * * 1"),
         ("description", .vStr "A fake DAG for testing the YAML processor."),
         ("default_args", .vDict [("owner", .vStr "tester@example.com")])]),
     ("tasks", .vDict
        [("start_task", .vDict [("operator", .vStr "dummy")]),
         ("process_data", .vDict
            [("operator", .vStr "ecs"), ("file", .vStr "src/fake_processor.py")]),
         ("send_report", .vDict
            [("operator", .vStr "databricks"), ("file", .vStr "src/fake_reporter.py")])]),
     ("execution", .vList [.vStr "start_task >> process_data >> send_report"])]

/-- The Scenario 1 file. -/
def wfScenario1 : YamlFile :=
  ⟨"dags/wf.yaml", some "raw-content", some [scenarioDag1]⟩

/-- One sub-document of spec Scenario 2 (two tasks, one chain). -/
def scenarioDagAlpha : PyVal :=
  .vDict
    [("dag", .vDict
        [("dag_id", .vStr "dag_alpha"),
         ("schedule_interval", .vStr "0 1 * * *"),
         ("description", .vStr "First test DAG."),
         ("default_args", .vDict [("owner", .vStr "owner_alpha@example.com")])]),
     ("tasks", .vDict
        [("alpha_task1", .vDict [("operator", .vStr "dummy")]),
         ("alpha_task2", .vDict
            [("operator", .vStr "python"), ("file", .vStr "alpha.py")])]),
     ("execution", .vList [.vStr "alpha_task1 >> alpha_task2"])]

/-- The other sub-document of spec Scenario 2. -/
def scenarioDagBeta : PyVal :=
  .vDict
    [("dag", .vDict
        [("dag_id", .vStr "dag_beta"),
         ("schedule_interval", .vStr "0 2 * * *"),
         ("description", .vStr "Second test DAG."),
         ("default_args", .vDict [("owner", .vStr "owner_beta@example.com")])]),
     ("tasks", .vDict
        [("beta_task1", .vDict [("operator", .vStr "bash")]),
         ("beta_task2", .vDict
            [("operator", .vStr "ecs"), ("file", .vStr "beta_script.sh")])]),
     ("execution", .vList [.vStr "beta_task1 >> beta_task2"])]

/-- The Scenario 2 file: two independent workflow sub-documents. -/
def wfScenario2 : YamlFile :=
  ⟨"dags/multi.yaml", some "raw-multi", some [scenarioDagAlpha, scenarioDagBeta]⟩

set_option maxRecDepth 16384 in
/-- C2: for every workflow-definition file that reads and structurally parses
successfully (every `dag` sub-document extracting without an internal
exception), the output is exactly one raw passage followed, for each
sub-document that is a mapping with a "dag" key, by one DAG summary passage
and then one task passage per entry of its task mapping, in that order.
Scenario 1 (one DAG, three tasks, chain
`"start_task >> process_data >> send_report"`) yields 5 passages, with
`process_data`'s text containing both the runs-after clause naming
`start_task` and the runs-before clause naming `send_report`; Scenario 2
(two sub-documents of two tasks each) yields 7 passages. -/
theorem claim_C2_output_shape :
    (∀ (path raw : String) (docs : List PyVal),
      (∀ d ∈ docs, isDagDoc d → ∃ ps, processDagDoc path d = .ok ps) →
      yamlProcess ⟨path, some raw, some docs⟩ =
        (createRawDocument path raw ::
          ((docs.filter (fun d => isDagDoc d)).map (dagPassages path)).flatten, []) ∧
      (∀ d ∈ docs, ∀ ps, processDagDoc path d = .ok ps →
        ps = createDagSummaryDocument path (dagIdOf d) (ownerOf d)
            (scheduleOf d) (descriptionOf d) ::
          (taskEntries d).map
            (fun e => taskPassage path (dagIdOf d) (ownerOf d) (depsOf d) e.1 e.2))) ∧
    ((yamlProcess wfScenario1).fst.map Passage.text =
      ["raw-content",
       "This document describes the DAG configuration with ID 'fake_seller_dag'. The owner is 'tester@example.com', it runs on schedule: '0 5 * * 1', and its description is: 'A fake DAG for testing the YAML processor.'.",
       "The DAG 'fake_seller_dag' contains a task named 'start_task'. This task uses the 'dummy' operator and runs the script 'not specified'. It runs before the following task(s): process_data.",
       "The DAG 'fake_seller_dag' contains a task named 'process_data'. This task uses the 'ecs' operator and runs the script 'src/fake_processor.py'. It runs after the following task(s): start_task. It runs before the following task(s): send_report.",
       "The DAG 'fake_seller_dag' contains a task named 'send_report'. This task uses the 'databricks' operator and runs the script 'src/fake_reporter.py'. It runs after the following task(s): process_data."]) ∧
    ((yamlProcess wfScenario1).fst.length = 5) ∧
    (strContains
      "The DAG 'fake_seller_dag' contains a task named 'process_data'. This task uses the 'ecs' operator and runs the script 'src/fake_processor.py'. It runs after the following task(s): start_task. It runs before the following task(s): send_report."
      "It runs after the following task(s): start_task." = true) ∧
    (strContains
      "The DAG 'fake_seller_dag' contains a task named 'process_data'. This task uses the 'ecs' operator and runs the script 'src/fake_processor.py'. It runs after the following task(s): start_task. It runs before the following task(s): send_report."
      "It runs before the following task(s): send_report." = true) ∧
    ((yamlProcess wfScenario2).fst.length = 7) := by
  refine ⟨?_, by decide, by decide, by decide, by decide, by decide⟩
  intro path raw docs h
  constructor
  · show yamlProcessDocs path docs [createRawDocument path raw] = _
    rw [yamlProcessDocs_all_ok path docs [createRawDocument path raw] h]
    rw [List.singleton_append]
  · intro d _ ps hps
    exact processDagDoc_ok_shape path d ps hps

/-- Witness for C2: the theorem applied to the Scenario 1 file, whose single
sub-document extracts without exception. -/
theorem claim_C2_output_shape_witness :
    yamlProcess wfScenario1 =
      (createRawDocument "dags/wf.yaml" "raw-content" ::
        (([scenarioDag1].filter (fun d => isDagDoc d)).map
          (dagPassages "dags/wf.yaml")).flatten, []) :=
  (claim_C2_output_shape.1 "dags/wf.yaml" "raw-content" [scenarioDag1]
    (by
      intro d hd _
      rw [List.mem_singleton] at hd
      subst hd
      exact ⟨_, rfl⟩)).1

/-! ## Claim C3: error handling of the per-sub-document loop -/

/-- A sub-document whose extraction raises: its `tasks` value is a string, so
`tasks.items()` raises `AttributeError` inside `_process_dag_doc`. -/
def badDag : PyVal :=
  .vDict [("dag", .vDict [("dag_id", .vStr "bad")]), ("tasks", .vStr "oops")]

/-- A file whose first sub-document raises and whose second one is a perfectly
processable workflow definition. -/
def wfC3 : YamlFile :=
  ⟨"dags/broken.yaml", some "raw3", some [badDag, scenarioDagAlpha]⟩

/-- C3 counterexample: in `wfC3` the first sub-document raises; the second
sub-document would extract fine (three passages), yet the file's output
retains only the raw passage — processing does not continue to the next
sub-document, refuting the claim as stated. -/
theorem claim_C3_counterexample :
    isDagDoc scenarioDagAlpha = true ∧
    (∃ ps, processDagDoc "dags/broken.yaml" scenarioDagAlpha = .ok ps ∧
      ps.length = 3) ∧
    (yamlProcess wfC3).fst.length = 1 ∧
    (yamlProcess wfC3).fst =
      [createRawDocument "dags/broken.yaml" "raw3"] ∧
    (yamlProcess wfC3).snd =
      ["Warning: Unexpected error processing YAML file dags/broken.yaml"] :=
  ⟨rfl, ⟨_, rfl, rfl⟩, rfl, rfl, rfl⟩

theorem yamlProcessDocs_stops_at_error (path : String) (pre post : List PyVal)
    (d : PyVal) (e : PyErr) (acc : List Passage)
    (hpre : ∀ x ∈ pre, isDagDoc x → ∃ ps, processDagDoc path x = .ok ps)
    (hd : isDagDoc d = true)
    (herr : processDagDoc path d = .error e) :
    yamlProcessDocs path (pre ++ d :: post) acc =
      (acc ++ ((pre.filter (fun x => isDagDoc x)).map (dagPassages path)).flatten,
       ["Warning: Unexpected error processing YAML file " ++ path]) := by
  induction pre generalizing acc with
  | nil =>
      simp only [List.nil_append, yamlProcessDocs, hd, if_true, herr]
      simp
  | cons p rest ih =>
      by_cases hp : isDagDoc p = true
      · obtain ⟨ps, hps⟩ := hpre p (List.mem_cons_self p rest) hp
        simp only [List.cons_append, yamlProcessDocs, hp, if_true, hps,
          List.append_eq]
        rw [ih (acc ++ ps) (fun x hx => hpre x (List.mem_cons_of_mem p hx))]
        simp [List.filter_cons, hp, dagPassages, hps, List.append_assoc]
      · simp only [List.cons_append, yamlProcessDocs, hp, if_false,
          List.append_eq]
        rw [ih acc (fun x hx => hpre x (List.mem_cons_of_mem p hx))]
        simp [List.filter_cons, hp]

/-- C3 (amended): an exception raised while processing one specific
sub-document is caught — at the file level.  The raw passage and the passages
already built for prior sub-documents are retained and returned and the
failure is reported, but processing stops: the remaining sub-documents of the
same file are skipped (in the source the exception escapes the `for` loop to
the `except` handler, so the loop never reaches the next sub-document). -/
theorem claim_C3_amended (path raw : String) (pre post : List PyVal)
    (d : PyVal) (e : PyErr)
    (hpre : ∀ x ∈ pre, isDagDoc x → ∃ ps, processDagDoc path x = .ok ps)
    (hd : isDagDoc d = true)
    (herr : processDagDoc path d = .error e) :
    yamlProcess ⟨path, some raw, some (pre ++ d :: post)⟩ =
      (createRawDocument path raw ::
        ((pre.filter (fun x => isDagDoc x)).map (dagPassages path)).flatten,
       ["Warning: Unexpected error processing YAML file " ++ path]) := by
  show yamlProcessDocs path (pre ++ d :: post) [createRawDocument path raw] = _
  rw [yamlProcessDocs_stops_at_error path pre post d e [createRawDocument path raw]
    hpre hd herr]
  rw [List.singleton_append]

/-- Witness for the amended C3 at the concrete file `wfC3`. -/
theorem claim_C3_amended_witness :
    yamlProcess ⟨"dags/broken.yaml", some "raw3", some ([] ++ badDag :: [scenarioDagAlpha])⟩ =
      (createRawDocument "dags/broken.yaml" "raw3" ::
        (([].filter (fun x => isDagDoc x)).map (dagPassages "dags/broken.yaml")).flatten,
       ["Warning: Unexpected error processing YAML file " ++ "dags/broken.yaml"]) :=
  claim_C3_amended "dags/broken.yaml" "raw3" [] [scenarioDagAlpha] badDag
    .attributeError (by intro x hx; cases hx) rfl rfl

/-! ## Claim C4: doc-id uniqueness -/

/-- The `doc_id` metadata value of one passage, when present (all of them are
strings in the source). -/
def docIdOf (p : Passage) : Option String :=
  match dictFind p.metadata "doc_id" with
  | some (.vStr s) => some s
  | _ => none

/-- The `doc_id` values of a passage sequence, in order. -/
def docIds (ps : List Passage) : List String :=
  ps.filterMap docIdOf

/-- The doc ids contributed by one successfully processed sub-document. -/
def idBlock (d : PyVal) : List String :=
  (pyStr (dagIdOf d) ++ ":__DAG_SUMMARY__") ::
    (taskEntries d).map (fun e => pyStr (dagIdOf d) ++ ":" ++ e.1)

theorem filterMap_some_eq_map {α β : Type} (g : α → β) (l : List α)
    (f : α → Option β) (h : ∀ a, f a = some (g a)) :
    l.filterMap f = l.map g := by
  induction l with
  | nil => rfl
  | cons p rest ih => simp [List.filterMap_cons, h p, ih]

theorem docIds_append (a b : List Passage) :
    docIds (a ++ b) = docIds a ++ docIds b :=
  List.filterMap_append a b docIdOf

theorem docIdOf_summary (path : String) (a b c d : PyVal) :
    docIdOf (createDagSummaryDocument path a b c d) =
      some (pyStr a ++ ":__DAG_SUMMARY__") := rfl

theorem docIdOf_task (path : String) (dagId owner : PyVal) (deps : TaskDeps)
    (tn : String) (td : PyVal) :
    docIdOf (taskPassage path dagId owner deps tn td) =
      some (pyStr dagId ++ ":" ++ tn) := rfl

theorem docIds_processDagDoc (path : String) (d : PyVal) (ps : List Passage)
    (h : processDagDoc path d = .ok ps) :
    docIds ps = idBlock d := by
  rw [processDagDoc_ok_shape path d ps h]
  simp only [docIds, idBlock, List.filterMap_cons, docIdOf_summary,
    List.filterMap_map, Function.comp_def]
  rw [filterMap_some_eq_map (fun e => pyStr (dagIdOf d) ++ ":" ++ e.1)
    (taskEntries d) _ (fun e => docIdOf_task path (dagIdOf d) (ownerOf d)
      (depsOf d) e.1 e.2)]

theorem docIds_yamlProcessDocs_prefix (path : String) (docs : List PyVal)
    (acc : List Passage) :
    docIds (yamlProcessDocs path docs acc).fst <+:
      docIds acc ++ ((docs.filter (fun d => isDagDoc d)).map idBlock).flatten := by
  induction docs generalizing acc with
  | nil => simp [yamlProcessDocs]
  | cons d rest ih =>
      by_cases hd : isDagDoc d = true
      · cases hps : processDagDoc path d with
        | ok ps =>
            simp only [yamlProcessDocs, hd, if_true, hps]
            have h2 := ih (acc ++ ps)
            rw [docIds_append, docIds_processDagDoc path d ps hps] at h2
            simp only [List.filter_cons, hd, if_true, List.map_cons,
              List.flatten_cons]
            rw [← List.append_assoc]
            exact h2
        | error e =>
            simp only [yamlProcessDocs, hd, if_true, hps]
            exact List.prefix_append _ _
      · simp only [yamlProcessDocs, hd, if_false]
        have h2 := ih acc
        simp only [List.filter_cons, hd, if_false]
        exact h2

theorem colon_inj (l₁ : List Char) :
    ∀ (l₂ r₁ r₂ : List Char), ':' ∉ l₁ → ':' ∉ l₂ →
      l₁ ++ ':' :: r₁ = l₂ ++ ':' :: r₂ → l₁ = l₂ ∧ r₁ = r₂ := by
  induction l₁ with
  | nil =>
      intro l₂ r₁ r₂ _ h₂ h
      cases l₂ with
      | nil =>
          simp only [List.nil_append] at h
          injection h with _ h'
          exact ⟨rfl, h'⟩
      | cons c cs =>
          simp only [List.nil_append, List.cons_append] at h
          injection h with hc _
          exact absurd (hc ▸ List.mem_cons_self c cs) h₂
  | cons a as ih =>
      intro l₂ r₁ r₂ h₁ h₂ h
      cases l₂ with
      | nil =>
          simp only [List.cons_append, List.nil_append] at h
          injection h with hc _
          exact absurd (hc ▸ List.mem_cons_self a as) h₁
      | cons c cs =>
          simp only [List.cons_append] at h
          injection h with hc h'
          have h₁' : ':' ∉ as := fun hm => h₁ (List.mem_cons_of_mem a hm)
          have h₂' : ':' ∉ cs := fun hm => h₂ (List.mem_cons_of_mem c hm)
          obtain ⟨he, hr⟩ := ih cs r₁ r₂ h₁' h₂' h'
          exact ⟨by rw [hc, he], hr⟩

/-- The doc-id encoding `prefix ++ ":" ++ suffix`. -/
def encodeId (p : String × String) : String := p.1 ++ ":" ++ p.2

theorem encodeId_inj (p q : String × String)
    (hp : ':' ∉ p.1.data) (hq : ':' ∉ q.1.data)
    (h : encodeId p = encodeId q) : p = q := by
  obtain ⟨a, b⟩ := p
  obtain ⟨c, d⟩ := q
  have hd : (a ++ ":" ++ b).data = (c ++ ":" ++ d).data := congrArg String.data h
  rw [String.data_append, String.data_append, String.data_append,
    String.data_append] at hd
  have hcolon : (":" : String).data = [':'] := rfl
  rw [hcolon] at hd
  simp only [List.append_assoc, List.singleton_append] at hd
  obtain ⟨h1, h2⟩ := colon_inj a.data c.data b.data d.data hp hq hd
  have ha : a = c := by
    cases a; cases c; exact congrArg String.mk h1
  have hb : b = d := by
    cases b; cases d; exact congrArg String.mk h2
  rw [ha, hb]

theorem pairwise_ne_map_encodeId (xs : List (String × String))
    (hfree : ∀ p ∈ xs, ':' ∉ p.1.data)
    (h : xs.Pairwise (· ≠ ·)) :
    (xs.map encodeId).Pairwise (· ≠ ·) := by
  rw [List.pairwise_map]
  refine h.imp_of_mem ?_
  intro a b ha hb hne heq
  exact hne (encodeId_inj a b (hfree a ha) (hfree b hb) heq)

theorem idBlock_encode (d : PyVal) :
    idBlock d = ((pyStr (dagIdOf d), "__DAG_SUMMARY__") ::
      (taskEntries d).map (fun e => (pyStr (dagIdOf d), e.1))).map encodeId := by
  simp only [idBlock, List.map_cons, List.map_map]
  congr 1
  rw [show encodeId (pyStr (dagIdOf d), "__DAG_SUMMARY__") =
      pyStr (dagIdOf d) ++ ":" ++ "__DAG_SUMMARY__" from rfl]
  rw [String.append_assoc]
  rfl

/-- The pair decomposition of one sub-document's id block. -/
def idPairsBlock (d : PyVal) : List (String × String) :=
  (pyStr (dagIdOf d), "__DAG_SUMMARY__") ::
    (taskEntries d).map (fun e => (pyStr (dagIdOf d), e.1))

/-- The pair decomposition of every doc id the workflow extractor can emit. -/
def idPairs (path : String) (docs : List PyVal) : List (String × String) :=
  ("raw", path) :: ((docs.filter (fun d => isDagDoc d)).map idPairsBlock).flatten

theorem ids_eq_map_encode (path : String) (docs : List PyVal) :
    ("raw:" ++ path) ::
        ((docs.filter (fun d => isDagDoc d)).map idBlock).flatten =
      (idPairs path docs).map encodeId := by
  simp only [idPairs, List.map_cons]
  congr 1
  rw [List.map_flatten encodeId]
  rw [List.map_map]
  congr 1
  refine List.map_congr_left ?_
  intro d _
  rw [idBlock_encode d]
  rfl

theorem idPairsBlock_fst (d : PyVal) (x : String × String)
    (hx : x ∈ idPairsBlock d) : x.1 = pyStr (dagIdOf d) := by
  unfold idPairsBlock at hx
  rcases List.mem_cons.mp hx with rfl | hx
  · rfl
  · rw [List.mem_map] at hx
    obtain ⟨e, _, rfl⟩ := hx
    rfl

theorem idPairs_colon_free (path : String) (docs : List PyVal)
    (h2 : ∀ d ∈ docs.filter (fun d => isDagDoc d), ':' ∉ (pyStr (dagIdOf d)).data) :
    ∀ p ∈ idPairs path docs, ':' ∉ p.1.data := by
  intro p hp
  unfold idPairs at hp
  rcases List.mem_cons.mp hp with rfl | hp
  · show ':' ∉ ("raw" : String).data
    decide
  · rw [List.mem_flatten] at hp
    obtain ⟨blk, hblk, hpblk⟩ := hp
    rw [List.mem_map] at hblk
    obtain ⟨d, hd, rfl⟩ := hblk
    rw [idPairsBlock_fst d p hpblk]
    exact h2 d hd

theorem idPairs_pairwise (path : String) (docs : List PyVal)
    (h1 : ((docs.filter (fun d => isDagDoc d)).map
      (fun d => pyStr (dagIdOf d))).Pairwise (· ≠ ·))
    (h3 : ∀ d ∈ docs.filter (fun d => isDagDoc d), pyStr (dagIdOf d) ≠ "raw")
    (h4 : ∀ d ∈ docs.filter (fun d => isDagDoc d),
      ∀ e ∈ taskEntries d, e.1 ≠ "__DAG_SUMMARY__")
    (h5 : ∀ d ∈ docs.filter (fun d => isDagDoc d),
      ((taskEntries d).map Prod.fst).Pairwise (· ≠ ·)) :
    (idPairs path docs).Pairwise (· ≠ ·) := by
  unfold idPairs
  rw [List.pairwise_cons]
  constructor
  · intro p hp heq
    rw [List.mem_flatten] at hp
    obtain ⟨blk, hblk, hpblk⟩ := hp
    rw [List.mem_map] at hblk
    obtain ⟨d, hd, rfl⟩ := hblk
    have : p.1 = pyStr (dagIdOf d) := idPairsBlock_fst d p hpblk
    have hr : ("raw", path).1 = p.1 := congrArg Prod.fst heq
    exact h3 d hd (by rw [← this, ← hr])
  · rw [List.pairwise_flatten]
    constructor
    · intro blk hblk
      rw [List.mem_map] at hblk
      obtain ⟨d, hd, rfl⟩ := hblk
      unfold idPairsBlock
      rw [List.pairwise_cons]
      constructor
      · intro q hq heq
        rw [List.mem_map] at hq
        obtain ⟨e, he, rfl⟩ := hq
        exact h4 d hd e he (congrArg Prod.snd heq).symm
      · rw [List.pairwise_map]
        have h5' := h5 d hd
        rw [List.pairwise_map] at h5'
        refine h5'.imp ?_
        intro e e' hne heq
        exact hne (congrArg Prod.snd heq)
    · rw [List.pairwise_map]
      rw [List.pairwise_map] at h1
      refine h1.imp ?_
      intro d d' hne x hx y hy heq
      have hx1 : x.1 = pyStr (dagIdOf d) := idPairsBlock_fst d x hx
      have hy1 : y.1 = pyStr (dagIdOf d') := idPairsBlock_fst d' y hy
      exact hne (by rw [← hx1, ← hy1, heq])

theorem yamlProcessDocs_acc_shift (path : String) (docs : List PyVal) :
    ∃ X warn, ∀ acc, yamlProcessDocs path docs acc = (acc ++ X, warn) := by
  induction docs with
  | nil => exact ⟨[], [], fun acc => by simp [yamlProcessDocs]⟩
  | cons d rest ih =>
      obtain ⟨X, w, hX⟩ := ih
      by_cases hd : isDagDoc d = true
      · cases hps : processDagDoc path d with
        | ok ps =>
            refine ⟨ps ++ X, w, fun acc => ?_⟩
            simp only [yamlProcessDocs, hd, if_true, hps]
            rw [hX (acc ++ ps), List.append_assoc]
        | error e =>
            refine ⟨[], ["Warning: Unexpected error processing YAML file " ++ path],
              fun acc => ?_⟩
            simp [yamlProcessDocs, hd, hps]
      · refine ⟨X, w, fun acc => ?_⟩
        simp only [yamlProcessDocs, hd, if_false]
        exact hX acc

/-- A sub-document with no tasks, used twice to collide summary ids. -/
def dupDag : PyVal := .vDict [("dag", .vDict [("dag_id", .vStr "dup")])]

/-- A sub-document with a task literally named `__DAG_SUMMARY__`. -/
def sumNameDag : PyVal :=
  .vDict [("dag", .vDict [("dag_id", .vStr "x")]),
          ("tasks", .vDict [("__DAG_SUMMARY__", .vDict [])])]

/-- Colon trickery, part one: dag `a` with a task named `b:t`. -/
def colonDagA : PyVal :=
  .vDict [("dag", .vDict [("dag_id", .vStr "a")]),
          ("tasks", .vDict [("b:t", .vDict [])])]

/-- Colon trickery, part two: dag `a:b` with a task named `t`. -/
def colonDagB : PyVal :=
  .vDict [("dag", .vDict [("dag_id", .vStr "a:b")]),
          ("tasks", .vDict [("t", .vDict [])])]

/-- A dag literally named `raw` whose task name equals the file path. -/
def rawNameDag : PyVal :=
  .vDict [("dag", .vDict [("dag_id", .vStr "raw")]),
          ("tasks", .vDict [("d.yaml", .vDict [])])]

/-- C4 counterexample: doc ids are not pairwise distinct in general — duplicate
`dag_id`s across sub-documents, a task named `__DAG_SUMMARY__`, colons inside
a `dag_id`, or a dag named `raw` with a task named like the file path each
produce a collision. -/
theorem claim_C4_counterexample :
    (docIds (yamlProcess ⟨"a.yaml", some "r", some [dupDag, dupDag]⟩).fst =
      ["raw:a.yaml", "dup:__DAG_SUMMARY__", "dup:__DAG_SUMMARY__"]) ∧
    ¬ (docIds (yamlProcess ⟨"a.yaml", some "r", some [dupDag, dupDag]⟩).fst).Pairwise (· ≠ ·) ∧
    ¬ (docIds (yamlProcess ⟨"b.yaml", some "r", some [sumNameDag]⟩).fst).Pairwise (· ≠ ·) ∧
    ¬ (docIds (yamlProcess ⟨"c.yaml", some "r", some [colonDagA, colonDagB]⟩).fst).Pairwise (· ≠ ·) ∧
    ¬ (docIds (yamlProcess ⟨"d.yaml", some "r", some [rawNameDag]⟩).fst).Pairwise (· ≠ ·) := by
  refine ⟨rfl, by decide, by decide, by decide, by decide⟩

/-- C4 (amended): within one workflow-definition file's output all `doc_id`
values are pairwise distinct, provided the processed sub-documents' rendered
dag ids are pairwise distinct, colon-free and distinct from `"raw"`, no task
is named `__DAG_SUMMARY__`, and each sub-document's task names are pairwise
distinct (dict keys); and the ids are a deterministic function of the file's
path and parsed content (the raw text not re-consulted). -/
theorem claim_C4_doc_id_uniqueness (path raw : String) (docs : List PyVal)
    (h1 : ((docs.filter (fun d => isDagDoc d)).map
      (fun d => pyStr (dagIdOf d))).Pairwise (· ≠ ·))
    (h2 : ∀ d ∈ docs.filter (fun d => isDagDoc d), ':' ∉ (pyStr (dagIdOf d)).data)
    (h3 : ∀ d ∈ docs.filter (fun d => isDagDoc d), pyStr (dagIdOf d) ≠ "raw")
    (h4 : ∀ d ∈ docs.filter (fun d => isDagDoc d),
      ∀ e ∈ taskEntries d, e.1 ≠ "__DAG_SUMMARY__")
    (h5 : ∀ d ∈ docs.filter (fun d => isDagDoc d),
      ((taskEntries d).map Prod.fst).Pairwise (· ≠ ·)) :
    (docIds (yamlProcess ⟨path, some raw, some docs⟩).fst).Pairwise (· ≠ ·) ∧
    (∀ raw', docIds (yamlProcess ⟨path, some raw, some docs⟩).fst =
      docIds (yamlProcess ⟨path, some raw', some docs⟩).fst) := by
  constructor
  · have hpre := docIds_yamlProcessDocs_prefix path docs [createRawDocument path raw]
    have hraw : docIds [createRawDocument path raw] = ["raw:" ++ path] := rfl
    rw [hraw, List.singleton_append, ids_eq_map_encode path docs] at hpre
    have hpw : ((idPairs path docs).map encodeId).Pairwise (· ≠ ·) :=
      pairwise_ne_map_encodeId _ (idPairs_colon_free path docs h2)
        (idPairs_pairwise path docs h1 h3 h4 h5)
    exact hpw.sublist hpre.sublist
  · intro raw'
    show docIds (yamlProcessDocs path docs [createRawDocument path raw]).fst =
      docIds (yamlProcessDocs path docs [createRawDocument path raw']).fst
    obtain ⟨X, w, hX⟩ := yamlProcessDocs_acc_shift path docs
    rw [hX, hX]
    show docIds ([createRawDocument path raw] ++ X) =
      docIds ([createRawDocument path raw'] ++ X)
    rw [docIds_append, docIds_append]
    rw [show docIds [createRawDocument path raw] = ["raw:" ++ path] from rfl,
      show docIds [createRawDocument path raw'] = ["raw:" ++ path] from rfl]

/-- Witness for the amended C4 at the Scenario 1 sub-document. -/
theorem claim_C4_doc_id_uniqueness_witness :
    (docIds (yamlProcess ⟨"w.yaml", some "r", some [scenarioDag1]⟩).fst).Pairwise (· ≠ ·) :=
  (claim_C4_doc_id_uniqueness "w.yaml" "r" [scenarioDag1]
    (by decide) (by decide) (by decide) (by decide) (by decide)).1

/-! ## Tabular-schema extractor (`src/processor/json_processor.py`) -/

/-- The warning printed by the generic `except` branch of
`JsonProcessor.process`. -/
def jsonGenericWarn (p : String) : String :=
  "Warning: Could not process JSON file " ++ p

/-- The `for col_name, col_data in data.get("column_types", {}).items()` loop:
passages accumulate into `documents`; the first raised exception aborts the
loop and the accumulated documents are returned with a warning. -/
def jsonColumnsLoop (filePath tableName : String)
    (tableMeta : List (String × PyVal)) :
    List (String × PyVal) → List Passage → List Passage × List String
  | [], acc => (acc, [])
  | (colName, colData) :: rest, acc =>
      match pyGet colData "description" (.vStr "N/A") with
      | .error _ => (acc, [jsonGenericWarn filePath])
      | .ok descV =>
          jsonColumnsLoop filePath tableName tableMeta rest
            (acc ++ [⟨"In table '" ++ tableName ++ "', column '" ++ colName ++
                "' has the description: " ++ pyStr descV,
              tableMeta ++ [("column", .vStr colName)]⟩])

/-- The enrichment part of `JsonProcessor.process` (after both identifying
keys were found), with each dynamic `.get` made explicit in source order. -/
def jsonProcessData (filePath : String) (rawP : Passage) (data : PyVal) :
    List Passage × List String :=
  match pyGet data "table" (.vStr "") with
  | .error _ => ([rawP], [jsonGenericWarn filePath])
  | .ok tableV =>
      match pyGet data "schema" (.vStr "") with
      | .error _ => ([rawP], [jsonGenericWarn filePath])
      | .ok schemaV =>
          let tableName := pyStr tableV
          let schema := pyStr schemaV
          let tableMeta : List (String × PyVal) :=
            [("source", .vStr filePath), ("table", .vStr tableName),
             ("schema", .vStr schema)]
          match pyGet data "table_description" (.vStr "N/A") with
          | .error _ => ([rawP], [jsonGenericWarn filePath])
          | .ok descV =>
              let summary : Passage :=
                ⟨"This document describes the table '" ++ tableName ++
                  "' in the schema '" ++ schema ++ "'. Description: " ++
                  pyStr descV, tableMeta⟩
              match pyGet data "column_types" (.vDict []) with
              | .error _ => ([rawP, summary], [jsonGenericWarn filePath])
              | .ok colsV =>
                  match pyItems colsV with
                  | .error _ => ([rawP, summary], [jsonGenericWarn filePath])
                  | .ok cols =>
                      jsonColumnsLoop filePath tableName tableMeta cols
                        [rawP, summary]

/-- A JSON file as the processor sees it: the `TextLoader` read (`none` =
I/O failure, caught by the generic `except`) and the `json.load` result
(`none` = `json.JSONDecodeError`). -/
structure JsonFile where
  path : String
  read : Option String
  parsed : Option PyVal
deriving Repr

/-- `JsonProcessor.process`: passages plus printed warnings.  The membership
tests `"schema" not in data or "table" not in data` are evaluated with
Python's short-circuiting semantics on the dynamic value. -/
def jsonProcess (f : JsonFile) : List Passage × List String :=
  match f.read with
  | none => ([], [jsonGenericWarn f.path])
  | some content =>
      let rawP : Passage := ⟨content, [("source", .vStr f.path)]⟩
      match f.parsed with
      | none =>
          ([rawP], ["Warning: Could not parse JSON file " ++ f.path ++
            ". Invalid JSON."])
      | some data =>
          match pyIn "schema" data with
          | .error _ => ([rawP], [jsonGenericWarn f.path])
          | .ok false => ([rawP], [])
          | .ok true =>
              match pyIn "table" data with
              | .error _ => ([rawP], [jsonGenericWarn f.path])
              | .ok false => ([rawP], [])
              | .ok true => jsonProcessData f.path rawP data

/-- C7: for a tabular-schema file that parses as structured content with both
the schema-name and table-name fields absent, the extractor returns only the
raw passage and reports nothing. -/
theorem claim_C7_out_of_scope (path content : String) (es : List (String × PyVal))
    (hs : hasKey es "schema" = false) (hT : hasKey es "table" = false) :
    jsonProcess ⟨path, some content, some (.vDict es)⟩ =
      ([⟨content, [("source", .vStr path)]⟩], []) := by
  cases hT2 : hasKey es "table" <;> simp [jsonProcess, pyIn, hs]

/-- Witness for C7 at a concrete mapping without the identifying fields. -/
theorem claim_C7_out_of_scope_witness :
    jsonProcess ⟨"cfg.json", some "rawcfg",
        some (.vDict [("settings", .vStr "on")])⟩ =
      ([⟨"rawcfg", [("source", .vStr "cfg.json")]⟩], []) :=
  claim_C7_out_of_scope "cfg.json" "rawcfg" [("settings", .vStr "on")] rfl rfl

/-- C10: when the parsed top-level value is not a mapping (array, string,
number, boolean or null), `process` returns exactly the single raw passage:
the `TypeError`/`AttributeError` raised by the membership test or by the
field lookups is caught internally, and no enrichment passage is emitted. -/
theorem claim_C10_non_mapping (path content : String) (v : PyVal)
    (h : ∀ es, v ≠ .vDict es) :
    (jsonProcess ⟨path, some content, some v⟩).fst =
      [⟨content, [("source", .vStr path)]⟩] := by
  cases v with
  | vDict es => exact absurd rfl (h es)
  | vInt n => simp [jsonProcess, pyIn]
  | vBool b => simp [jsonProcess, pyIn]
  | vNone => simp [jsonProcess, pyIn]
  | vStr s =>
      cases hb : strContains s "schema" with
      | false => simp [jsonProcess, pyIn, hb]
      | true =>
          cases hb2 : strContains s "table" with
          | false => simp [jsonProcess, pyIn, hb, hb2]
          | true => simp [jsonProcess, pyIn, hb, hb2, jsonProcessData, pyGet]
  | vList items =>
      cases hb : items.any (fun it =>
          match it with
          | .vStr s => s = "schema"
          | _ => false) with
      | false => simp [jsonProcess, pyIn, hb]
      | true =>
          cases hb2 : items.any (fun it =>
              match it with
              | .vStr s => s = "table"
              | _ => false) with
          | false => simp [jsonProcess, pyIn, hb, hb2]
          | true => simp [jsonProcess, pyIn, hb, hb2, jsonProcessData, pyGet]

/-- Witness for C10 at a concrete JSON array containing both key strings (so
the membership tests pass and the field lookups raise, which is caught). -/
theorem claim_C10_non_mapping_witness :
    (jsonProcess ⟨"arr.json", some "rawarr",
        some (.vList [.vStr "schema", .vStr "table"])⟩).fst =
      [⟨"rawarr", [("source", .vStr "arr.json")]⟩] :=
  claim_C10_non_mapping "arr.json" "rawarr" (.vList [.vStr "schema", .vStr "table"])
    (fun es h => by cases h)

/-! ## Claim C6: column passages -/

/-- `f"{data.get('table', '')}"` on the success path. -/
def jsonTableName (es : List (String × PyVal)) : String :=
  pyStr ((dictFind es "table").getD (.vStr ""))

/-- `f"{data.get('schema', '')}"` on the success path. -/
def jsonSchemaName (es : List (String × PyVal)) : String :=
  pyStr ((dictFind es "schema").getD (.vStr ""))

/-- The `table_metadata` mapping of the source. -/
def jsonTableMeta (path : String) (es : List (String × PyVal)) :
    List (String × PyVal) :=
  [("source", .vStr path), ("table", .vStr (jsonTableName es)),
   ("schema", .vStr (jsonSchemaName es))]

/-- The table summary passage on the success path. -/
def jsonSummaryPassage (path : String) (es : List (String × PyVal)) : Passage :=
  ⟨"This document describes the table '" ++ jsonTableName es ++
    "' in the schema '" ++ jsonSchemaName es ++ "'. Description: " ++
    pyStr ((dictFind es "table_description").getD (.vStr "N/A")),
   jsonTableMeta path es⟩

/-- The column passage on the success path: the text names the table and the
column and states the description (default `"N/A"`) — nothing else. -/
def jsonColumnPassage (path : String) (es : List (String × PyVal))
    (e : String × PyVal) : Passage :=
  ⟨"In table '" ++ jsonTableName es ++ "', column '" ++ e.1 ++
    "' has the description: " ++ pyStr (dictGetD e.2 "description" (.vStr "N/A")),
   jsonTableMeta path es ++ [("column", .vStr e.1)]⟩

theorem jsonColumnsLoop_ok (path T : String) (meta : List (String × PyVal))
    (cols : List (String × PyVal)) (acc : List Passage)
    (hwf : ∀ e ∈ cols, ∃ ces, e.2 = PyVal.vDict ces) :
    jsonColumnsLoop path T meta cols acc =
      (acc ++ cols.map (fun e =>
        (⟨"In table '" ++ T ++ "', column '" ++ e.1 ++
            "' has the description: " ++
            pyStr (dictGetD e.2 "description" (.vStr "N/A")),
          meta ++ [("column", .vStr e.1)]⟩ : Passage)), []) := by
  induction cols generalizing acc with
  | nil => simp [jsonColumnsLoop]
  | cons e rest ih =>
      obtain ⟨colName, colData⟩ := e
      obtain ⟨ces, hces⟩ := hwf (colName, colData) (List.mem_cons_self _ rest)
      subst hces
      simp only [jsonColumnsLoop, pyGet]
      rw [ih _ (fun e' he' => hwf e' (List.mem_cons_of_mem _ he'))]
      simp [dictGetD, List.append_assoc]

/-- The column descriptor of the C6 counterexample: declared type, max length
and a non-null sensitivity classification are all present. -/
def piiColData : PyVal :=
  .vDict [("column_type", .vStr "decimal(10,2)"),
          ("max_length", .vStr "42"),
          ("description", .vStr "the score"),
          ("pii_confidentiality_impact_level", .vStr "restricted")]

/-- A tabular-schema file with one column carrying a sensitivity tag. -/
def piiSchemaFile : JsonFile :=
  ⟨"dd.json", some "rawjson",
   some (.vDict [("schema", .vStr "s1"), ("table", .vStr "t1"),
                 ("table_description", .vStr "tab desc"),
                 ("column_types", .vDict [("score", piiColData)])])⟩

/-- C6 counterexample: the column of `piiSchemaFile` has a declared type, a
declared max length and a present, non-null sensitivity classification, yet
its column passage's text mentions none of them (no type, no max length, no
sensitivity/PII clause) — refuting the claim as stated. -/
theorem claim_C6_counterexample :
    ((jsonProcess piiSchemaFile).fst.map Passage.text =
      ["rawjson",
       "This document describes the table 't1' in the schema 's1'. Description: tab desc",
       "In table 't1', column 'score' has the description: the score"]) ∧
    dictFind [("column_type", PyVal.vStr "decimal(10,2)"),
          ("max_length", PyVal.vStr "42"),
          ("description", PyVal.vStr "the score"),
          ("pii_confidentiality_impact_level", PyVal.vStr "restricted")]
        "pii_confidentiality_impact_level" = some (.vStr "restricted") ∧
    strContains "In table 't1', column 'score' has the description: the score"
      "decimal" = false ∧
    strContains "In table 't1', column 'score' has the description: the score"
      "42" = false ∧
    strContains "In table 't1', column 'score' has the description: the score"
      "restricted" = false ∧
    strContains "In table 't1', column 'score' has the description: the score"
      "pii" = false ∧
    strContains "In table 't1', column 'score' has the description: the score"
      "PII" = false ∧
    strContains "In table 't1', column 'score' has the description: the score"
      "sensit" = false :=
  ⟨rfl, rfl, by decide, by decide, by decide, by decide, by decide, by decide⟩

/-- C6 (amended): for every tabular-schema file that parses and has the
schema and table fields, each entry of the column mapping (whose descriptor
is a mapping) yields exactly one column passage whose text names the table
and the column and states the column's description (default `"N/A"`), and
nothing else: the declared type, the max length and the sensitivity
classification are never included, whether present or not. -/
theorem claim_C6_column_passages (path content : String)
    (es : List (String × PyVal))
    (hs : hasKey es "schema" = true) (ht : hasKey es "table" = true)
    (cols : List (String × PyVal))
    (hcols : (dictFind es "column_types").getD (.vDict []) = .vDict cols)
    (hwf : ∀ e ∈ cols, ∃ ces, e.2 = PyVal.vDict ces) :
    jsonProcess ⟨path, some content, some (.vDict es)⟩ =
      (⟨content, [("source", .vStr path)]⟩ ::
        jsonSummaryPassage path es ::
        cols.map (jsonColumnPassage path es), []) := by
  simp only [jsonProcess, pyIn, hs, ht, jsonProcessData, pyGet]
  rw [hcols]
  simp only [pyItems]
  rw [jsonColumnsLoop_ok path (pyStr ((dictFind es "table").getD (.vStr "")))
    [("source", .vStr path),
     ("table", .vStr (pyStr ((dictFind es "table").getD (.vStr "")))),
     ("schema", .vStr (pyStr ((dictFind es "schema").getD (.vStr ""))))]
    cols _ hwf]
  rfl

/-- Witness for the amended C6 at `piiSchemaFile`. -/
theorem claim_C6_column_passages_witness :
    jsonProcess piiSchemaFile =
      (⟨"rawjson", [("source", .vStr "dd.json")]⟩ ::
        jsonSummaryPassage "dd.json"
          [("schema", .vStr "s1"), ("table", .vStr "t1"),
           ("table_description", .vStr "tab desc"),
           ("column_types", .vDict [("score", piiColData)])] ::
        [("score", piiColData)].map (jsonColumnPassage "dd.json"
          [("schema", .vStr "s1"), ("table", .vStr "t1"),
           ("table_description", .vStr "tab desc"),
           ("column_types", .vDict [("score", piiColData)])]), []) :=
  claim_C6_column_passages "dd.json" "rawjson"
    [("schema", .vStr "s1"), ("table", .vStr "t1"),
     ("table_description", .vStr "tab desc"),
     ("column_types", .vDict [("score", piiColData)])]
    rfl rfl [("score", piiColData)] rfl
    (by
      intro e he
      rw [List.mem_singleton] at he
      subst he
      exact ⟨_, rfl⟩)

/-! ## Source-code extractor (`src/processor/python_processor.py`) -/

/-- A node of the parsed syntax tree, restricted to the shapes
`PythonProcessor.process` inspects: `ast.FunctionDef` (with the docstring the
stdlib `ast.get_docstring` would return), `ast.Import`, `ast.ImportFrom`
(module `none` for a relative import without module) and every other node
kind, of which only the child list matters. -/
inductive PyAst where
  | functionDef (name : String) (docstring : Option String) (body : List PyAst)
  | importStmt (names : List String)
  | importFrom (module : Option String) (names : List String)
  | other (children : List PyAst)

/-- The child nodes, as `ast.iter_child_nodes` yields them. -/
def childrenOf : PyAst → List PyAst
  | .functionDef _ _ body => body
  | .importStmt _ => []
  | .importFrom _ _ => []
  | .other cs => cs

mutual

/-- Node count, the termination measure of the breadth-first walk. -/
def astSize : PyAst → Nat
  | .functionDef _ _ b => 1 + astSizeList b
  | .importStmt _ => 1
  | .importFrom _ _ => 1
  | .other cs => 1 + astSizeList cs

/-- Total size of a forest. -/
def astSizeList : List PyAst → Nat
  | [] => 0
  | a :: t => astSize a + astSizeList t

end

theorem astSizeList_append (a b : List PyAst) :
    astSizeList (a ++ b) = astSizeList a + astSizeList b := by
  induction a with
  | nil => simp [astSizeList]
  | cons x t ih => simp [astSizeList, ih, Nat.add_assoc]

theorem astSizeList_children_lt (n : PyAst) :
    astSizeList (childrenOf n) < astSize n := by
  cases n <;> simp [childrenOf, astSize, astSizeList]

theorem astSize_pos (n : PyAst) : 1 ≤ astSize n := by
  cases n <;> simp [astSize]

/-- One breadth-first step of `ast.walk`'s queue, fuelled so the recursion is
structural (the fuel only needs to dominate the total node count, which
shrinks by at least one per step). -/
def astWalkFuel : Nat → List PyAst → List PyAst
  | _, [] => []
  | 0, l => l
  | fuel + 1, n :: rest => n :: astWalkFuel fuel (rest ++ childrenOf n)

/-- `ast.walk`: breadth-first traversal via a queue, yielding every node of
the tree (the module node itself is handled by the caller). -/
def astWalk (l : List PyAst) : List PyAst :=
  astWalkFuel (astSizeList l) l

/-- `n` occurs somewhere in the tree rooted at the second argument. -/
inductive OccursIn : PyAst → PyAst → Prop
  | refl (n : PyAst) : OccursIn n n
  | child {n c p : PyAst} : c ∈ childrenOf p → OccursIn n c → OccursIn n p

theorem occursIn_iff (n p : PyAst) :
    OccursIn n p ↔ n = p ∨ ∃ c ∈ childrenOf p, OccursIn n c := by
  constructor
  · intro h
    cases h with
    | refl => exact Or.inl rfl
    | child hc ho => exact Or.inr ⟨_, hc, ho⟩
  · rintro (rfl | ⟨c, hc, ho⟩)
    · exact OccursIn.refl n
    · exact OccursIn.child hc ho

theorem mem_astWalkFuel_iff (fuel : Nat) :
    ∀ (l : List PyAst), astSizeList l ≤ fuel →
      ∀ n, (n ∈ astWalkFuel fuel l ↔ ∃ t ∈ l, OccursIn n t) := by
  induction fuel with
  | zero =>
      intro l hf n
      cases l with
      | nil => simp [astWalkFuel]
      | cons x rest =>
          exfalso
          have h1 := astSize_pos x
          simp [astSizeList] at hf
          omega
  | succ f ih =>
      intro l hf n
      cases l with
      | nil => simp [astWalkFuel]
      | cons x rest =>
          have hf' : astSizeList (rest ++ childrenOf x) ≤ f := by
            rw [astSizeList_append]
            have h1 := astSizeList_children_lt x
            simp only [astSizeList] at hf
            omega
          rw [show astWalkFuel (f + 1) (x :: rest) =
            x :: astWalkFuel f (rest ++ childrenOf x) from rfl]
          simp only [List.mem_cons, ih (rest ++ childrenOf x) hf' n]
          constructor
          · rintro (rfl | ⟨t, ht, ho⟩)
            · exact ⟨n, Or.inl rfl, OccursIn.refl n⟩
            · rcases List.mem_append.mp ht with ht | ht
              · exact ⟨t, Or.inr ht, ho⟩
              · exact ⟨x, Or.inl rfl, OccursIn.child ht ho⟩
          · rintro ⟨t, (rfl | ht), ho⟩
            · rcases (occursIn_iff n t).mp ho with rfl | ⟨c, hc, ho'⟩
              · exact Or.inl rfl
              · exact Or.inr ⟨c, List.mem_append.mpr (Or.inr hc), ho'⟩
            · exact Or.inr ⟨t, List.mem_append.mpr (Or.inl ht), ho⟩

theorem mem_astWalk_iff (l : List PyAst) (n : PyAst) :
    n ∈ astWalk l ↔ ∃ t ∈ l, OccursIn n t :=
  mem_astWalkFuel_iff (astSizeList l) l (Nat.le_refl _) n

/-- The `alias.name`s of an `ast.Import` node. -/
def importsOfNode : PyAst → List String
  | .importStmt names => names
  | _ => []

/-- The module of an `ast.ImportFrom` node when truthy (`if node.module`
excludes `None` and the empty string). -/
def importFromsOfNode : PyAst → List String
  | .importFrom (some m) _ => if m = "" then [] else [m]
  | _ => []

/-- Insert into a sorted list of strings. -/
def insertSorted (x : String) : List String → List String
  | [] => [x]
  | y :: rest => if x ≤ y then x :: y :: rest else y :: insertSorted x rest

/-- Insertion sort, the `sorted(...)` of the source (on deduplicated input
both produce the unique sorted arrangement). -/
def sortStrings : List String → List String
  | [] => []
  | x :: rest => insertSorted x (sortStrings rest)

/-- The `sorted(imports)` set of `PythonProcessor.process`: every `Import`
alias name plus every truthy `ImportFrom` module collected over the whole
walk, deduplicated and sorted. -/
def sortedImports (body : List PyAst) : List String :=
  sortStrings
    (((astWalk body).flatMap importsOfNode ++
      (astWalk body).flatMap importFromsOfNode).dedup)

/-- `ast.get_docstring(node) or "No docstring provided."`: Python's `or`
substitutes the default both for `None` and for a falsy empty-string
docstring. -/
def docstringOrDefault (doc : Option String) : String :=
  match doc with
  | some s => if s = "" then "No docstring provided." else s
  | none => "No docstring provided."

/-- The function passage of an `ast.FunctionDef` node. -/
def fnPassageOf (path : String) : PyAst → Option Passage
  | .functionDef name doc _ =>
      some ⟨"Function '" ++ name ++ "': " ++ docstringOrDefault doc,
            [("source", .vStr path), ("function_name", .vStr name)]⟩
  | _ => none

/-- A Python source file as the processor sees it: the raw read (`none` =
read failure) and the `ast.parse` result as the module body (`none` =
`SyntaxError`); either failure lands in the single generic `except`. -/
structure PythonFile where
  path : String
  read : Option String
  parsed : Option (List PyAst)

/-- `PythonProcessor.process`: passages plus printed warnings. -/
def pythonProcess (f : PythonFile) : List Passage × List String :=
  match f.read with
  | none => ([], ["Warning: Could not process Python file " ++ f.path])
  | some content =>
      let rawP : Passage := ⟨content, [("source", .vStr f.path)]⟩
      match f.parsed with
      | none => ([rawP], ["Warning: Could not process Python file " ++ f.path])
      | some body =>
          let summary : Passage :=
            ⟨"This Python script imports the following libraries: " ++
              joinWith ", " (sortedImports body) ++ ".",
             [("source", .vStr f.path), ("content_type", .vStr "python_summary")]⟩
          (rawP :: summary :: (astWalk body).filterMap (fnPassageOf f.path), [])

/-- C9: for every readable, syntactically valid source-code file, the output
is the raw passage, the import summary, and then exactly one function passage
per `FunctionDef` node of the breadth-first walk, with text
`"Function '<name>': <docstring>"` (the docstring defaulting to
`"No docstring provided."` when absent — Python's `or` also substitutes the
default for a falsy empty-string docstring) and metadata carrying
`function_name`; in particular every function definition occurring anywhere
in the tree — including nested ones — contributes its passage. -/
theorem claim_C9_function_passages (path content : String) (body : List PyAst) :
    (pythonProcess ⟨path, some content, some body⟩).fst =
      ⟨content, [("source", .vStr path)]⟩ ::
      ⟨"This Python script imports the following libraries: " ++
          joinWith ", " (sortedImports body) ++ ".",
        [("source", .vStr path), ("content_type", .vStr "python_summary")]⟩ ::
      (astWalk body).filterMap (fnPassageOf path) ∧
    (∀ (name : String) (doc : Option String) (fnBody : List PyAst),
      (∃ t ∈ body, OccursIn (.functionDef name doc fnBody) t) →
      (⟨"Function '" ++ name ++ "': " ++ docstringOrDefault doc,
        [("source", .vStr path), ("function_name", .vStr name)]⟩ : Passage) ∈
        (pythonProcess ⟨path, some content, some body⟩).fst) := by
  constructor
  · rfl
  · intro name doc fnBody hocc
    have hmem : (PyAst.functionDef name doc fnBody) ∈ astWalk body :=
      (mem_astWalk_iff body _).mpr hocc
    have hpass : (⟨"Function '" ++ name ++ "': " ++ docstringOrDefault doc,
        [("source", .vStr path), ("function_name", .vStr name)]⟩ : Passage) ∈
        (astWalk body).filterMap (fnPassageOf path) :=
      List.mem_filterMap.mpr ⟨_, hmem, rfl⟩
    show _ ∈ _ :: _ :: (astWalk body).filterMap (fnPassageOf path)
    exact List.mem_cons_of_mem _ (List.mem_cons_of_mem _ hpass)

/-- A module body with a nested function definition (whose docstring is the
falsy empty string) and an import. -/
def pyScenarioBody : List PyAst :=
  [.functionDef "outer" (some "Outer doc.")
     [.functionDef "inner" (some "") []],
   .importStmt ["os", "json"]]

/-- Witness for C9: the nested `inner` function of `pyScenarioBody` gets its
passage, its empty-string docstring replaced by the default (Python `or`
truthiness). -/
theorem claim_C9_function_passages_witness :
    (⟨"Function 'inner': No docstring provided.",
      [("source", .vStr "s.py"), ("function_name", .vStr "inner")]⟩ : Passage) ∈
      (pythonProcess ⟨"s.py", some "rawpy", some pyScenarioBody⟩).fst :=
  (claim_C9_function_passages "s.py" "rawpy" pyScenarioBody).2 "inner" (some "") []
    ⟨.functionDef "outer" (some "Outer doc.") [.functionDef "inner" (some "") []],
     List.mem_cons_self _ _,
     OccursIn.child (List.mem_cons_self _ _) (OccursIn.refl _)⟩

/-! ## Query-script extractor (`src/processor/sql_processor.py`)

The four `re.search` calls are modelled by a small backtracking matcher over
exactly the constructs those patterns use: case-insensitive literals,
single-character-class repetitions (`\s*`, `\s+`, `.*?`, `.*` under
`re.DOTALL`), optional groups, alternation and capturing groups, with
Python's leftmost-start, then pattern-order semantics. -/

/-- Character classes of the patterns: `\s` (as in `re`, ASCII range) and `.`
under `re.DOTALL`. -/
inductive CClass where
  | ws
  | anyc
deriving Repr, DecidableEq

/-- Class membership. -/
def classMatch : CClass → Char → Bool
  | .ws, c => isPySpace c
  | .anyc, _ => true

/-- The regex fragment used by the four patterns. -/
inductive RE where
  | lit (s : String)
  | cls (c : CClass) (atLeastOne : Bool) (greedy : Bool)
  | seq (a b : RE)
  | alt (a b : RE)
  | opt (r : RE)
  | grp (i : Nat) (r : RE)

/-- Captured groups: index paired with the captured characters, most recent
first. -/
abbrev Caps := List (Nat × List Char)

/-- Case-insensitive literal prefix match, returning the rest of the input. -/
def litMatch : List Char → List Char → Option (List Char)
  | [], s => some s
  | _ :: _, [] => none
  | p :: ps, c :: cs => if p.toLower = c.toLower then litMatch ps cs else none

/-- Greedy class repetition: try the longest consumption first, handing each
suffix to the continuation on backtracking. -/
def repGreedy (cl : CClass) (k : List Char → Option Caps) :
    List Char → Option Caps
  | [] => k []
  | c :: rest =>
      (if classMatch cl c then repGreedy cl k rest else none) <|> k (c :: rest)

/-- Lazy class repetition: try the shortest consumption first. -/
def repLazy (cl : CClass) (k : List Char → Option Caps) :
    List Char → Option Caps
  | [] => k []
  | c :: rest =>
      k (c :: rest) <|> (if classMatch cl c then repLazy cl k rest else none)

/-- The backtracking matcher in continuation style: alternatives are tried in
pattern order, repetitions according to their greediness, captures recorded
on the successful path. -/
def reMatch : RE → List Char → Caps → (List Char → Caps → Option Caps) →
    Option Caps
  | .lit p, s, caps, k =>
      match litMatch p.data s with
      | some s' => k s' caps
      | none => none
  | .cls cl one greedy, s, caps, k =>
      let k' := fun s' => k s' caps
      if one then
        match s with
        | [] => none
        | c :: rest =>
            if classMatch cl c then
              if greedy then repGreedy cl k' rest else repLazy cl k' rest
            else none
      else
        if greedy then repGreedy cl k' s else repLazy cl k' s
  | .seq a b, s, caps, k =>
      reMatch a s caps (fun s' caps' => reMatch b s' caps' k)
  | .alt a b, s, caps, k => reMatch a s caps k <|> reMatch b s caps k
  | .opt r, s, caps, k => reMatch r s caps k <|> k s caps
  | .grp i r, s, caps, k =>
      reMatch r s caps (fun s' caps' =>
        k s' ((i, s.take (s.length - s'.length)) :: caps'))

/-- `re.search`: try a match at every start position, leftmost first. -/
def reSearch (re : RE) (s : List Char) : Option Caps :=
  match reMatch re s [] (fun _ caps => some caps) with
  | some caps => some caps
  | none =>
      match s with
      | [] => none
      | _ :: rest => reSearch re rest

/-- `match.group(i)`: `none` when the group did not participate. -/
def capGroup (caps : Caps) (i : Nat) : Option String :=
  match caps with
  | [] => none
  | (j, cs) :: rest => if i = j then some (String.mk cs) else capGroup rest i

/-- Right-nested sequence of regex parts. -/
def reSeqList : List RE → RE
  | [] => .lit ""
  | [r] => r
  | r :: rest => .seq r (reSeqList rest)

/-- `\s+`. -/
def wsPlus : RE := .cls .ws true true

/-- `\s*`. -/
def wsStar : RE := .cls .ws false true

/-- `.*?` under DOTALL. -/
def anyLazy : RE := .cls .anyc false false

/-- `.*` under DOTALL. -/
def anyGreedy : RE := .cls .anyc false true

/-- `unload\s*\(\s*\$\$(.*?)\$\$\s*\)`. -/
def unloadRE : RE :=
  reSeqList [.lit "unload", wsStar, .lit "(", wsStar, .lit "$$",
    .grp 1 anyLazy, .lit "$$", wsStar, .lit ")"]

/-- `create\s+materialized\s+view\s+.*?\s+as\s+(.*)`. -/
def mviewRE : RE :=
  reSeqList [.lit "create", wsPlus, .lit "materialized", wsPlus, .lit "view",
    wsPlus, anyLazy, wsPlus, .lit "as", wsPlus, .grp 1 anyGreedy]

/-- `create\s+(or\s+replace\s+)?view\s+.*?\s+as\s+(.*)`. -/
def viewRE : RE :=
  reSeqList [.lit "create", wsPlus,
    .opt (.grp 1 (reSeqList [.lit "or", wsPlus, .lit "replace", wsPlus])),
    .lit "view", wsPlus, anyLazy, wsPlus, .lit "as", wsPlus, .grp 2 anyGreedy]

/-- `create\s+(temp\s+)?table\s+.*?as\s*(\((.*?)\)|(.*))`. -/
def tableRE : RE :=
  reSeqList [.lit "create", wsPlus, .opt (.grp 1 (.seq (.lit "temp") wsPlus)),
    .lit "table", wsPlus, anyLazy, .lit "as", wsStar,
    .grp 2 (.alt (reSeqList [.lit "(", .grp 3 anyLazy, .lit ")"])
      (.grp 4 anyGreedy))]

/-- `group(3) or group(4) or ""`: Python truthiness (both `None` and the
empty string are falsy). -/
def pyOrStr (a b : Option String) : String :=
  match a with
  | some s =>
      if s = "" then
        match b with
        | some t => t
        | none => ""
      else s
  | none =>
      match b with
      | some t => t
      | none => ""

/-- The `if unload_match: ... elif ... else` chain choosing `sql_for_parsing`
(the four searches are independent, so the eager source computation equals
this nested selection). -/
def selectMainQuery (sqlContent : String) : String :=
  match reSearch unloadRE sqlContent.data with
  | some caps => pyStrip ((capGroup caps 1).getD "")
  | none =>
      match reSearch mviewRE sqlContent.data with
      | some caps => pyStrip ((capGroup caps 1).getD "")
      | none =>
          match reSearch viewRE sqlContent.data with
          | some caps => pyStrip ((capGroup caps 2).getD "")
          | none =>
              match reSearch tableRE sqlContent.data with
              | some caps => pyStrip (pyOrStr (capGroup caps 3) (capGroup caps 4))
              | none => sqlContent

/-- Identifier characters of a qualified SQL name. -/
def isIdentChar (c : Char) : Bool := c.isAlphanum || c = '_' || c = '.'

/-- Split into maximal identifier runs (accumulator holds the current run,
reversed). -/
def sqlTokensAux : List Char → List Char → List String
  | [], acc => if acc.isEmpty then [] else [String.mk acc.reverse]
  | c :: rest, acc =>
      if isIdentChar c then sqlTokensAux rest (c :: acc)
      else if acc.isEmpty then sqlTokensAux rest []
      else String.mk acc.reverse :: sqlTokensAux rest []

/-- Tokenize a query body into identifier-like tokens. -/
def sqlTokens (s : String) : List String := sqlTokensAux s.data []

/-- Lower-case a string (code-point wise). -/
def lowerStr (s : String) : String := String.mk (s.data.map Char.toLower)

/-- The token following each `FROM`/`JOIN` keyword. -/
def tablesAfterKeywords : List String → List String
  | [] => []
  | t :: rest =>
      if lowerStr t = "from" || lowerStr t = "join" then
        match rest with
        | [] => []
        | name :: _ => name :: tablesAfterKeywords rest
      else tablesAfterKeywords rest

/-- Deduplicate keeping first occurrences. -/
def dedupKeep : List String → List String → List String
  | [], _ => []
  | x :: rest, seen =>
      if x ∈ seen then dedupKeep rest seen else x :: dedupKeep rest (x :: seen)

/-- Modelled from the spec: `sql_metadata.parser.Parser(...).tables`, the
external SQL-aware parser's referenced-table extraction (the library is not
part of this repository).  Per §4.4 it extracts "the set of referenced table
names"; modelled as the identifiers following `FROM`/`JOIN`, deduplicated in
first-occurrence order. -/
def extractTables (body : String) : List String :=
  dedupKeep (tablesAfterKeywords (sqlTokens body)) []

/-- A SQL file as the processor sees it: only the raw read matters (`none` =
read failure, caught by the outer `except`). -/
structure SqlFile where
  path : String
  read : Option String
deriving Repr

/-- `SqlProcessor.process`: the raw passage carries the cleaned content
(Databricks marker removed, whitespace-stripped); the summary passage lists
the tables of the selected main query body.  The `except: pass` branch around
the external parser is not exercised by the model (the modelled extraction is
total), which only strengthens the always-present-summary direction. -/
def sqlProcess (f : SqlFile) : List Passage × List String :=
  match f.read with
  | none => ([], ["Warning: Could not process SQL file " ++ f.path])
  | some content =>
      let sqlContent := pyStrip (pyReplaceAll content "-- Databricks notebook source")
      let rawP : Passage := ⟨sqlContent, [("source", .vStr f.path)]⟩
      let body := selectMainQuery sqlContent
      let tables := extractTables body
      let summary : Passage :=
        ⟨"This SQL script reads from the following tables: " ++
          (if tables.isEmpty then "none" else joinWith ", " tables) ++ ".",
         [("source", .vStr f.path), ("content_type", .vStr "sql_summary")]⟩
      ([rawP, summary], [])

/-- The Scenario 6 query-script file. -/
def sqlScenarioFile : SqlFile :=
  ⟨"v.sql", some "CREATE VIEW v AS SELECT * FROM t1 JOIN t2 ON t1.id = t2.id"⟩

set_option maxRecDepth 100000 in
/-- C8: the main query body is selected by ordered, case-insensitive,
multi-line pattern precedence — unload-wrapped quoted body, then
`CREATE MATERIALIZED VIEW ... AS`, then `CREATE [OR REPLACE] VIEW ... AS`,
then `CREATE [TEMP] TABLE ... AS` with or without parentheses — the first
matching pattern winning and the whole cleaned text used as the body when
none matches; Scenario 6: the file containing
`CREATE VIEW v AS SELECT * FROM t1 JOIN t2 ...` yields the raw passage plus
a summary passage listing `t1` and `t2`, tagged `content_type = "sql_summary"`. -/
theorem claim_C8_pattern_precedence :
    (∀ (s : String) (caps : Caps), reSearch unloadRE s.data = some caps →
      selectMainQuery s = pyStrip ((capGroup caps 1).getD "")) ∧
    (∀ (s : String) (caps : Caps), reSearch unloadRE s.data = none →
      reSearch mviewRE s.data = some caps →
      selectMainQuery s = pyStrip ((capGroup caps 1).getD "")) ∧
    (∀ (s : String) (caps : Caps), reSearch unloadRE s.data = none →
      reSearch mviewRE s.data = none → reSearch viewRE s.data = some caps →
      selectMainQuery s = pyStrip ((capGroup caps 2).getD "")) ∧
    (∀ (s : String) (caps : Caps), reSearch unloadRE s.data = none →
      reSearch mviewRE s.data = none → reSearch viewRE s.data = none →
      reSearch tableRE s.data = some caps →
      selectMainQuery s = pyStrip (pyOrStr (capGroup caps 3) (capGroup caps 4))) ∧
    (∀ s : String, reSearch unloadRE s.data = none →
      reSearch mviewRE s.data = none → reSearch viewRE s.data = none →
      reSearch tableRE s.data = none → selectMainQuery s = s) ∧
    (selectMainQuery "CREATE VIEW v AS SELECT * FROM t1 JOIN t2 ON t1.id = t2.id" =
      "SELECT * FROM t1 JOIN t2 ON t1.id = t2.id") ∧
    (extractTables "SELECT * FROM t1 JOIN t2 ON t1.id = t2.id" = ["t1", "t2"]) ∧
    (sqlProcess sqlScenarioFile =
      ([⟨"CREATE VIEW v AS SELECT * FROM t1 JOIN t2 ON t1.id = t2.id",
          [("source", .vStr "v.sql")]⟩,
        ⟨"This SQL script reads from the following tables: t1, t2.",
          [("source", .vStr "v.sql"), ("content_type", .vStr "sql_summary")]⟩],
       [])) := by
  refine ⟨?_, ?_, ?_, ?_, ?_, by decide, by decide, rfl⟩
  · intro s caps h
    rw [selectMainQuery, h]
  · intro s caps h1 h2
    rw [selectMainQuery, h1, h2]
  · intro s caps h1 h2 h3
    rw [selectMainQuery, h1, h2, h3]
  · intro s caps h1 h2 h3 h4
    rw [selectMainQuery, h1, h2, h3, h4]
  · intro s h1 h2 h3 h4
    rw [selectMainQuery, h1, h2, h3, h4]

set_option maxRecDepth 100000 in
/-- Witness for C8: no pattern matches `"select 1"`, so the whole cleaned
text is the body. -/
theorem claim_C8_pattern_precedence_witness :
    selectMainQuery "select 1" = "select 1" :=
  claim_C8_pattern_precedence.2.2.2.2.1 "select 1" rfl rfl rfl rfl

/-! ## Dispatcher and generic chunker (`src/data_loader.py`, `src/config.py`) -/

/-- `config.ALLOWED_EXTENSIONS`. -/
def ALLOWED_EXTENSIONS : List String := [".py", ".sql", ".md", ".json", ".yaml"]

/-- Modelled from the spec: the Generic Chunker (§4.6) — the fallback path
delegates to langchain's `RecursiveCharacterTextSplitter`, an external
collaborator not part of this repository — splits text into overlapping
windows of the configured target size (1000 characters, 200 overlap),
preserving original order; an empty text yields no windows. -/
def chunkFuel (size step : Nat) : Nat → List Char → List String
  | _, [] => []
  | 0, l => [String.mk l]
  | fuel + 1, l =>
      if l.length ≤ size then [String.mk l]
      else String.mk (l.take size) :: chunkFuel size step fuel (l.drop step)

/-- Modelled from the spec: `chunkText size overlap s` — the overlapping
fixed-size windows of §4.6. -/
def chunkText (chunkSize overlap : Nat) (s : String) : List String :=
  chunkFuel chunkSize (max 1 (chunkSize - overlap)) s.data.length s.data

/-- A file as `DataLoader._load_and_split_documents` sees it: the extension
picked by `os.path.splitext`, the raw content (`none` = unreadable) and the
per-format parse oracles. -/
structure SourceFile where
  path : String
  ext : String
  content : Option String
  yamlDocs : Option (List PyVal)
  jsonVal : Option PyVal
  pyBody : Option (List PyAst)

/-- `DataLoader._load_and_split_documents`: dispatch on the extension to the
specialized processor, or fall back to the plain-text chunker (whose I/O
failure yields the empty sequence without a report). -/
def loadAndSplitDocuments (f : SourceFile) : List Passage × List String :=
  if f.ext = ".json" then jsonProcess ⟨f.path, f.content, f.jsonVal⟩
  else if f.ext = ".yaml" then yamlProcess ⟨f.path, f.content, f.yamlDocs⟩
  else if f.ext = ".sql" then sqlProcess ⟨f.path, f.content⟩
  else if f.ext = ".py" then pythonProcess ⟨f.path, f.content, f.pyBody⟩
  else
    match f.content with
    | none => ([], [])
    | some c =>
        ((chunkText 1000 200 c).map
          (fun t => (⟨t, [("source", .vStr f.path)]⟩ : Passage)), [])

theorem jsonColumnsLoop_head (path T : String) (meta : List (String × PyVal))
    (cols : List (String × PyVal)) (a : Passage) :
    ∀ acc, (jsonColumnsLoop path T meta cols (a :: acc)).fst.head? = some a := by
  induction cols with
  | nil => intro acc; rfl
  | cons e rest ih =>
      intro acc
      obtain ⟨cn, cd⟩ := e
      simp only [jsonColumnsLoop]
      cases hg : pyGet cd "description" (.vStr "N/A") with
      | error e2 => rfl
      | ok dv => exact ih _

theorem jsonProcess_head (path c : String) (v : Option PyVal) :
    (jsonProcess ⟨path, some c, v⟩).fst.head? =
      some ⟨c, [("source", .vStr path)]⟩ := by
  cases v with
  | none => rfl
  | some data =>
      simp only [jsonProcess]
      cases hs : pyIn "schema" data with
      | error e => rfl
      | ok b =>
          cases b with
          | false => rfl
          | true =>
              cases ht : pyIn "table" data with
              | error e => rfl
              | ok b2 =>
                  cases b2 with
                  | false => rfl
                  | true =>
                      simp only [jsonProcessData]
                      cases h1 : pyGet data "table" (.vStr "") with
                      | error e => rfl
                      | ok tv =>
                          dsimp only
                          cases h2 : pyGet data "schema" (.vStr "") with
                          | error e => rfl
                          | ok sv =>
                              dsimp only
                              cases h3 : pyGet data "table_description" (.vStr "N/A") with
                              | error e => rfl
                              | ok dv =>
                                  dsimp only
                                  cases h4 : pyGet data "column_types" (.vDict []) with
                                  | error e => rfl
                                  | ok cv =>
                                      dsimp only
                                      cases h5 : pyItems cv with
                                      | error e => rfl
                                      | ok cols => exact jsonColumnsLoop_head _ _ _ cols _ _

theorem yamlProcess_head (path c : String) (v : Option (List PyVal)) :
    (yamlProcess ⟨path, some c, v⟩).fst.head? =
      some (createRawDocument path c) := by
  cases v with
  | none => rfl
  | some docs =>
      show (yamlProcessDocs path docs [createRawDocument path c]).fst.head? = _
      obtain ⟨X, w, hX⟩ := yamlProcessDocs_acc_shift path docs
      rw [hX]
      rfl

theorem head_ne_nil {l : List Passage} {p : Passage}
    (h : l.head? = some p) : l ≠ [] := by
  intro hnil
  rw [hnil] at h
  cases h

/-- C1 counterexample: a readable `.sql` file whose content ends in a newline
— the first passage's text is the *cleaned* content, not the raw content; and
(under the spec-modelled Generic Chunker) a readable empty `.md` file yields
the empty sequence, breaking non-emptiness on the fallback path too. -/
theorem claim_C1_counterexample :
    ((loadAndSplitDocuments
        ⟨"q.sql", ".sql", some "SELECT 1;\n", none, none, none⟩).fst.head?.map
      Passage.text = some "SELECT 1;") ∧
    ("SELECT 1;" ≠ "SELECT 1;\n") ∧
    (".sql" ∈ ALLOWED_EXTENSIONS) ∧
    ((loadAndSplitDocuments
        ⟨"empty.md", ".md", some "", none, none, none⟩).fst = []) ∧
    (".md" ∈ ALLOWED_EXTENSIONS) :=
  ⟨rfl, by decide, by decide, rfl, by decide⟩

/-- C1 (amended): for every readable file with an allowed extension, the
specialized extractors (`.json`, `.yaml`, `.py`) return a non-empty sequence
whose first passage's text equals the file's raw content; the query-script
extractor (`.sql`) returns a non-empty sequence whose first passage's text is
the *cleaned* content (marker comment removed, whitespace-stripped); and the
fallback (`.md`) returns exactly the chunker's windows (possibly none, for
empty content). -/
theorem claim_C1_totality (f : SourceFile) (c : String)
    (hc : f.content = some c) (hallowed : f.ext ∈ ALLOWED_EXTENSIONS) :
    ((f.ext = ".json" ∨ f.ext = ".yaml" ∨ f.ext = ".py") →
      (loadAndSplitDocuments f).fst ≠ [] ∧
      (loadAndSplitDocuments f).fst.head?.map Passage.text = some c) ∧
    (f.ext = ".sql" →
      (loadAndSplitDocuments f).fst ≠ [] ∧
      (loadAndSplitDocuments f).fst.head?.map Passage.text =
        some (pyStrip (pyReplaceAll c "-- Databricks notebook source"))) ∧
    (f.ext = ".md" →
      (loadAndSplitDocuments f).fst =
        (chunkText 1000 200 c).map
          (fun t => (⟨t, [("source", .vStr f.path)]⟩ : Passage))) := by
  obtain ⟨path, ext, content, yd, jv, pb⟩ := f
  simp only at hc
  subst hc
  refine ⟨?_, ?_, ?_⟩
  · rintro (rfl | rfl | rfl)
    · have h := jsonProcess_head path c jv
      refine ⟨?_, ?_⟩
      · show (jsonProcess ⟨path, some c, jv⟩).fst ≠ []
        exact head_ne_nil h
      · show ((jsonProcess ⟨path, some c, jv⟩).fst.head?).map Passage.text = some c
        rw [h]
        rfl
    · have h := yamlProcess_head path c yd
      refine ⟨?_, ?_⟩
      · show (yamlProcess ⟨path, some c, yd⟩).fst ≠ []
        exact head_ne_nil h
      · show ((yamlProcess ⟨path, some c, yd⟩).fst.head?).map Passage.text = some c
        rw [h]
        rfl
    · show (pythonProcess ⟨path, some c, pb⟩).fst ≠ [] ∧
        ((pythonProcess ⟨path, some c, pb⟩).fst.head?).map Passage.text = some c
      cases pb with
      | none => exact ⟨by simp [pythonProcess], rfl⟩
      | some body => exact ⟨by simp [pythonProcess], rfl⟩
  · rintro rfl
    show (sqlProcess ⟨path, some c⟩).fst ≠ [] ∧
      ((sqlProcess ⟨path, some c⟩).fst.head?).map Passage.text =
        some (pyStrip (pyReplaceAll c "-- Databricks notebook source"))
    exact ⟨by simp [sqlProcess], rfl⟩
  · rintro rfl
    rfl

/-- Witness for the amended C1 at a concrete readable `.py` file. -/
theorem claim_C1_totality_witness :
    (loadAndSplitDocuments
        ⟨"a.py", ".py", some "x = 1", none, none, some []⟩).fst ≠ [] ∧
    (loadAndSplitDocuments
        ⟨"a.py", ".py", some "x = 1", none, none, some []⟩).fst.head?.map
      Passage.text = some "x = 1" :=
  (claim_C1_totality ⟨"a.py", ".py", some "x = 1", none, none, some []⟩
    "x = 1" rfl (by decide)).1 (Or.inr (Or.inr rfl))
